import Mathlib

/-!
# SmartDrive motor-controller driver: register protocol

A shallow embedding of `smartdrive.h` / `smartdrive.cxx` (namespace `upm`).

* Machine integers are natural numbers; every conversion to `uint8_t` or
  `uint32_t` that the C++ performs is an explicit reduction (`u8`, `u32`).
* The I2C transport (`mraa::I2c`) is external.  Each call the driver makes on it
  is appended to a log kept in the driver state, so an operation is a function
  from driver state to driver state (and a result).  `sleep`/`usleep` are logged
  too, since the polling loops are characterised by them.
* What the board answers to a read is given by `Device.reg`, indexed by the
  position of the read in the log, so register contents may change over time.
* The handlers `catch (int e)` only print; the transport is taken to complete
  each transfer.  Console output (`std::cout`, `printf`) is not modelled, but
  the register reads made to produce it are.
* The two `while` loops take a polling budget; a call that exhausts it is
  reported as still running, with the log it has produced so far.
-/

namespace upm

/-! ## Enumerations and constants (`smartdrive.h`) -/

/-- Motor selector, `enum MotorID_t`. -/
inductive MotorID_t where
  | Motor_ID_1
  | Motor_ID_2
  | Motor_ID_BOTH
  deriving DecidableEq

/-- Numeric value of a motor selector. -/
def MotorID_t.toNat : MotorID_t → Nat
  | .Motor_ID_1 => 1
  | .Motor_ID_2 => 2
  | .Motor_ID_BOTH => 3

/-- Turning direction, `enum Direction_t`. -/
inductive Direction_t where
  | Dir_Reverse
  | Dir_Forward
  deriving DecidableEq

/-- Stop action, `enum MotorAction_t`. -/
inductive MotorAction_t where
  | Action_Float
  | Action_Brake
  | Action_BrakeHold
  deriving DecidableEq

/-- Calibration multiplier `212.7`, taken as an exact rational. -/
def SmartDrive_VOLTAGE_MULTIPLIER : ℚ := 2127 / 10

@[simp] abbrev SmartDrive_CONTROL_SPEED : Nat := 0x01
@[simp] abbrev SmartDrive_CONTROL_RAMP : Nat := 0x02
@[simp] abbrev SmartDrive_CONTROL_RELATIVE : Nat := 0x04
@[simp] abbrev SmartDrive_CONTROL_TACHO : Nat := 0x08
@[simp] abbrev SmartDrive_CONTROL_BRK : Nat := 0x10
@[simp] abbrev SmartDrive_CONTROL_ON : Nat := 0x20
@[simp] abbrev SmartDrive_CONTROL_TIME : Nat := 0x40
@[simp] abbrev SmartDrive_CONTROL_GO : Nat := 0x80

@[simp] abbrev SmartDrive_COMMAND : Nat := 0x41
@[simp] abbrev SmartDrive_SETPT_M1 : Nat := 0x42
@[simp] abbrev SmartDrive_SPEED_M1 : Nat := 0x46
@[simp] abbrev SmartDrive_TIME_M1 : Nat := 0x47
@[simp] abbrev SmartDrive_CMD_B_M1 : Nat := 0x48
@[simp] abbrev SmartDrive_CMD_A_M1 : Nat := 0x49

@[simp] abbrev SmartDrive_SETPT_M2 : Nat := 0x4A
@[simp] abbrev SmartDrive_SPEED_M2 : Nat := 0x4E
@[simp] abbrev SmartDrive_TIME_M2 : Nat := 0x4F
@[simp] abbrev SmartDrive_CMD_B_M2 : Nat := 0x50
@[simp] abbrev SmartDrive_CMD_A_M2 : Nat := 0x51

@[simp] abbrev SmartDrive_POSITION_M1 : Nat := 0x52
@[simp] abbrev SmartDrive_POSITION_M2 : Nat := 0x56
@[simp] abbrev SmartDrive_STATUS_M1 : Nat := 0x5A
@[simp] abbrev SmartDrive_STATUS_M2 : Nat := 0x5B

@[simp] abbrev SmartDrive_P_Kp : Nat := 0x5E
@[simp] abbrev SmartDrive_P_Ki : Nat := 0x60
@[simp] abbrev SmartDrive_P_Kd : Nat := 0x62
@[simp] abbrev SmartDrive_S_Kp : Nat := 0x64
@[simp] abbrev SmartDrive_S_Ki : Nat := 0x66
@[simp] abbrev SmartDrive_S_Kd : Nat := 0x68
@[simp] abbrev SmartDrive_PASSCOUNT : Nat := 0x6A
@[simp] abbrev SmartDrive_PASSTOLERANCE : Nat := 0x6B

@[simp] abbrev SmartDrive_BATT_VOLTAGE : Nat := 0x6E

@[simp] abbrev SmartDrive_MOTOR_CONTROL_ON : Nat := 0x1
@[simp] abbrev SmartDrive_MOTOR_IS_RAMPING : Nat := 0x2
@[simp] abbrev SmartDrive_MOTOR_IS_POWERED : Nat := 0x4
@[simp] abbrev SmartDrive_MOTOR_POS_CTRL_ON : Nat := 0x8
@[simp] abbrev SmartDrive_MOTOR_IN_BRAKE_MODE : Nat := 0x10
@[simp] abbrev SmartDrive_MOTOR_OVERLOADED : Nat := 0x20
@[simp] abbrev SmartDrive_MOTOR_IN_TIME_MODE : Nat := 0x40
@[simp] abbrev SmartDrive_MOTOR_IS_STALLED : Nat := 0x80

/-! ## Integer conversions -/

/-- Conversion of an integer to `uint8_t`. -/
def u8 (x : Int) : Nat := (x % 256).toNat

/-- Conversion of an integer to `uint32_t`. -/
def u32 (x : Int) : Nat := (x % 4294967296).toNat

/-! ## Transport -/

/-- One call made on the transport (`mraa::I2c`) or on the clock. -/
inductive Call where
  | address (addr : Nat)
  | writeReg (reg value : Nat)
  | readReg (reg : Nat)
  | write (data : List Nat)
  | readWordReg (reg : Nat)
  | readBytesReg (reg length : Nat)
  | sleep (seconds : Nat)
  | usleep (micros : Nat)
  deriving DecidableEq

/-- The board: `reg n r` is what register `r` holds when the call at position
`n` of the log is served. -/
structure Device where
  reg : Nat → Nat → Nat

/-- Driver object: its bus address, the board behind it, and the calls made so
far (oldest first). -/
structure SmartDrive where
  m_controlAddr : Nat
  board : Device
  log : List Call

/-- Result of an operation that may poll: the state reached, and whether the
operation has returned (`false`: the polling budget ran out inside the loop). -/
structure Polled where
  sd : SmartDrive
  returned : Bool

namespace SmartDrive

/-- Append one call to the log. -/
def call (sd : SmartDrive) (c : Call) : SmartDrive :=
  { sd with log := sd.log ++ [c] }

/-- Constructor `SmartDrive(i2c_bus, address)`: claims the address once. -/
def create (board : Device) (address : Nat) : SmartDrive :=
  call { m_controlAddr := address, board := board, log := [] } (.address address)

def writeByte (sd : SmartDrive) (addr value : Nat) : SmartDrive :=
  (sd.call (.address sd.m_controlAddr)).call (.writeReg addr value)

def readByte (sd : SmartDrive) (addr : Nat) : Nat × SmartDrive :=
  let sd1 := sd.call (.address sd.m_controlAddr)
  (sd1.board.reg sd1.log.length addr % 256, sd1.call (.readReg addr))

def writeArray (sd : SmartDrive) (array : List Nat) : SmartDrive :=
  (sd.call (.address sd.m_controlAddr)).call (.write array)

def readInteger (sd : SmartDrive) (addr : Nat) : Nat × SmartDrive :=
  let sd1 := sd.call (.address sd.m_controlAddr)
  let t := sd1.log.length
  ((sd1.board.reg t addr % 256 + 256 * (sd1.board.reg t (addr + 1) % 256)) % 65536,
    sd1.call (.readWordReg addr))

def readLongSigned (sd : SmartDrive) (addr : Nat) : Nat × SmartDrive :=
  let sd1 := sd.call (.address sd.m_controlAddr)
  let t := sd1.log.length
  let bytes : Nat → Nat := fun i => sd1.board.reg t (addr + i) % 256
  ((bytes 0 ||| (bytes 1 <<< 8) ||| (bytes 2 <<< 16) ||| (bytes 3 <<< 24)) % 4294967296,
    sd1.call (.readBytesReg addr 4))

def command (sd : SmartDrive) (cmd : Nat) : SmartDrive :=
  sd.writeByte SmartDrive_COMMAND cmd

def GetBattVoltage (sd : SmartDrive) : ℚ × SmartDrive :=
  let (value, sd1) := sd.readByte SmartDrive_BATT_VOLTAGE
  ((value : ℚ) * SmartDrive_VOLTAGE_MULTIPLIER, sd1)

def ReadTachometerPosition (sd : SmartDrive) (motor_number : MotorID_t) : Nat × SmartDrive :=
  if motor_number.toNat = 1 then
    sd.readLongSigned SmartDrive_POSITION_M1
  else
    sd.readLongSigned SmartDrive_POSITION_M2

def Run_Unlimited (sd : SmartDrive) (motor_number : MotorID_t) (direction : Direction_t)
    (speed : Nat) : SmartDrive :=
  let ctrl := 0
  let ctrl := ctrl ||| SmartDrive_CONTROL_SPEED
  let ctrl := ctrl ||| SmartDrive_CONTROL_BRK
  let ctrl := if motor_number ≠ .Motor_ID_BOTH then ctrl ||| SmartDrive_CONTROL_GO else ctrl
  let speed := if direction ≠ .Dir_Forward then u8 ((speed : Int) * -1) else speed
  let sd := if motor_number ≠ .Motor_ID_2 then
      sd.writeArray [SmartDrive_SPEED_M1, speed, 0, 0, ctrl] else sd
  let sd := if motor_number ≠ .Motor_ID_1 then
      sd.writeArray [SmartDrive_SPEED_M2, speed, 0, 0, ctrl] else sd
  if motor_number = .Motor_ID_BOTH then sd.writeByte SmartDrive_COMMAND 0x53 else sd

def StopMotor (sd : SmartDrive) (motor_number : MotorID_t) (next_action : MotorAction_t) :
    SmartDrive :=
  if next_action ≠ .Action_Float then
    sd.writeByte SmartDrive_COMMAND (u8 ((65 : Int) + motor_number.toNat - 1))
  else
    sd.writeByte SmartDrive_COMMAND (u8 ((97 : Int) + motor_number.toNat - 1))

def IsTimeDone (sd : SmartDrive) (motor_number : MotorID_t) : Bool × SmartDrive :=
  let (result_1, sd) :=
    if motor_number ≠ .Motor_ID_2 then sd.readByte SmartDrive_STATUS_M1 else (0, sd)
  let (result_2, sd) :=
    if motor_number ≠ .Motor_ID_1 then sd.readByte SmartDrive_STATUS_M2 else (0, sd)
  (decide (result_1 &&& 0x40 = 0) && decide (result_2 &&& 0x40 = 0), sd)

def WaitUntilTimeDone (sd : SmartDrive) (motor_number : MotorID_t) : Nat → Polled
  | 0 => ⟨sd, false⟩
  | budget + 1 =>
    let r := sd.IsTimeDone motor_number
    if r.1 = false then
      WaitUntilTimeDone (r.2.call (.sleep 1)) motor_number budget
    else
      ⟨r.2, true⟩

def Run_Seconds (sd : SmartDrive) (motor_number : MotorID_t) (direction : Direction_t)
    (speed duration : Nat) (wait_for_completion : Bool) (next_action : MotorAction_t)
    (budget : Nat) : Polled :=
  let ctrl := 0
  let ctrl := ctrl ||| SmartDrive_CONTROL_SPEED
  let ctrl := ctrl ||| SmartDrive_CONTROL_TIME
  let ctrl := if next_action = .Action_Brake then ctrl ||| SmartDrive_CONTROL_BRK else ctrl
  let ctrl := if next_action = .Action_BrakeHold then
      (ctrl ||| SmartDrive_CONTROL_BRK) ||| SmartDrive_CONTROL_ON else ctrl
  let ctrl := if motor_number ≠ .Motor_ID_BOTH then ctrl ||| SmartDrive_CONTROL_GO else ctrl
  let speed := if direction ≠ .Dir_Forward then u8 ((speed : Int) * -1) else speed
  let sd := if motor_number.toNat &&& 0x01 ≠ 0 then
      sd.writeArray [SmartDrive_SPEED_M1, speed, duration, 0, ctrl] else sd
  let sd := if motor_number.toNat &&& 0x02 ≠ 0 then
      sd.writeArray [SmartDrive_SPEED_M2, speed, duration, 0, ctrl] else sd
  let sd := if motor_number = .Motor_ID_BOTH then sd.writeByte SmartDrive_COMMAND 0x53 else sd
  let sd := (sd.readByte SmartDrive_SPEED_M1).2
  let sd := (sd.readByte SmartDrive_SPEED_M2).2
  let sd := (sd.readByte SmartDrive_TIME_M1).2
  let sd := (sd.readByte SmartDrive_TIME_M2).2
  if wait_for_completion then
    (sd.call (.sleep 1)).WaitUntilTimeDone motor_number budget
  else
    ⟨sd, true⟩

def IsTachoDone (sd : SmartDrive) (motor_number : MotorID_t) : Bool × SmartDrive :=
  let (result_1, sd) :=
    if motor_number ≠ .Motor_ID_2 then sd.readByte SmartDrive_STATUS_M1 else (0, sd)
  let (result_2, sd) :=
    if motor_number ≠ .Motor_ID_1 then sd.readByte SmartDrive_STATUS_M2 else (0, sd)
  (decide (result_1 &&& 0x08 = 0) && decide (result_2 &&& 0x08 = 0), sd)

def WaitUntilTachoDone (sd : SmartDrive) (motor_number : MotorID_t) : Nat → Polled
  | 0 => ⟨sd, false⟩
  | budget + 1 =>
    let r := sd.IsTachoDone motor_number
    if r.1 = false then
      WaitUntilTachoDone (r.2.call (.usleep 30000)) motor_number budget
    else
      ⟨r.2, true⟩

def Run_Degrees (sd : SmartDrive) (motor_number : MotorID_t) (direction : Direction_t)
    (speed degrees : Nat) (wait_for_completion : Bool) (next_action : MotorAction_t)
    (budget : Nat) : Polled :=
  let ctrl := 0
  let ctrl := ctrl ||| SmartDrive_CONTROL_SPEED
  let ctrl := ctrl ||| SmartDrive_CONTROL_TACHO
  let ctrl := ctrl ||| SmartDrive_CONTROL_RELATIVE
  let d := degrees
  let d := if direction ≠ .Dir_Forward then u32 ((degrees : Int) * -1) else d
  let t4 := (d / 0x1000000) % 256
  let t3 := ((d % 0x1000000) / 0x10000) % 256
  let t2 := (((d % 0x1000000) % 0x10000) / 0x100) % 256
  let t1 := (((d % 0x1000000) % 0x10000) % 0x100) % 256
  let ctrl := if next_action = .Action_Brake then ctrl ||| SmartDrive_CONTROL_BRK else ctrl
  let ctrl := if next_action = .Action_BrakeHold then
      (ctrl ||| SmartDrive_CONTROL_BRK) ||| SmartDrive_CONTROL_ON else ctrl
  let ctrl := if motor_number ≠ .Motor_ID_BOTH then ctrl ||| SmartDrive_CONTROL_GO else ctrl
  let sd := if motor_number ≠ .Motor_ID_2 then
      sd.writeArray [SmartDrive_SETPT_M1, t1, t2, t3, t4, speed, 0, 0, ctrl] else sd
  let sd := if motor_number ≠ .Motor_ID_1 then
      sd.writeArray [SmartDrive_SETPT_M2, t1, t2, t3, t4, speed, 0, 0, ctrl] else sd
  let sd := if motor_number = .Motor_ID_BOTH then sd.writeByte SmartDrive_COMMAND 0x53 else sd
  if wait_for_completion then
    (sd.call (.sleep 1)).WaitUntilTachoDone motor_number budget
  else
    ⟨sd, true⟩

def Run_Rotations (sd : SmartDrive) (motor_number : MotorID_t) (direction : Direction_t)
    (speed rotations : Nat) (wait_for_completion : Bool) (next_action : MotorAction_t)
    (budget : Nat) : Polled :=
  let ctrl := 0
  let ctrl := ctrl ||| SmartDrive_CONTROL_SPEED
  let ctrl := ctrl ||| SmartDrive_CONTROL_TACHO
  let ctrl := ctrl ||| SmartDrive_CONTROL_RELATIVE
  let d := u32 ((rotations : Int) * 360)
  let d := if direction ≠ .Dir_Forward then u32 (((rotations : Int) * 360) * -1) else d
  let t4 := (d / 0x1000000) % 256
  let t3 := ((d % 0x1000000) / 0x10000) % 256
  let t2 := (((d % 0x1000000) % 0x10000) / 0x100) % 256
  let t1 := (((d % 0x1000000) % 0x10000) % 0x100) % 256
  let ctrl := if next_action = .Action_Brake then ctrl ||| SmartDrive_CONTROL_BRK else ctrl
  let ctrl := if next_action = .Action_BrakeHold then
      (ctrl ||| SmartDrive_CONTROL_BRK) ||| SmartDrive_CONTROL_ON else ctrl
  let ctrl := if motor_number ≠ .Motor_ID_BOTH then ctrl ||| SmartDrive_CONTROL_GO else ctrl
  let sd := if motor_number ≠ .Motor_ID_2 then
      sd.writeArray [SmartDrive_SETPT_M1, t1, t2, t3, t4, speed, 0, 0, ctrl] else sd
  let sd := if motor_number ≠ .Motor_ID_1 then
      sd.writeArray [SmartDrive_SETPT_M2, t1, t2, t3, t4, speed, 0, 0, ctrl] else sd
  let sd := if motor_number = .Motor_ID_BOTH then sd.writeByte SmartDrive_COMMAND 0x53 else sd
  if wait_for_completion then
    (sd.call (.sleep 1)).WaitUntilTachoDone motor_number budget
  else
    ⟨sd, true⟩

/-- In the source the `if ( wait_for_completion )` has no braces: it guards the
`sleep(1)` only, and `WaitUntilTachoDone` is called on every path. -/
def Run_Tacho (sd : SmartDrive) (motor_number : MotorID_t) (speed tacho_count : Nat)
    (wait_for_completion : Bool) (next_action : MotorAction_t) (budget : Nat) : Polled :=
  let ctrl := 0
  let ctrl := ctrl ||| SmartDrive_CONTROL_SPEED
  let ctrl := ctrl ||| SmartDrive_CONTROL_TACHO
  let d := tacho_count
  let t4 := (d / 0x1000000) % 256
  let t3 := ((d % 0x1000000) / 0x10000) % 256
  let t2 := (((d % 0x1000000) % 0x10000) / 0x100) % 256
  let t1 := (((d % 0x1000000) % 0x10000) % 0x100) % 256
  let ctrl := if next_action = .Action_Brake then ctrl ||| SmartDrive_CONTROL_BRK else ctrl
  let ctrl := if next_action = .Action_BrakeHold then
      (ctrl ||| SmartDrive_CONTROL_BRK) ||| SmartDrive_CONTROL_ON else ctrl
  let ctrl := if motor_number ≠ .Motor_ID_BOTH then ctrl ||| SmartDrive_CONTROL_GO else ctrl
  let sd := if motor_number ≠ .Motor_ID_2 then
      sd.writeArray [SmartDrive_SETPT_M1, t1, t2, t3, t4, speed, 0, 0, ctrl] else sd
  let sd := if motor_number ≠ .Motor_ID_1 then
      sd.writeArray [SmartDrive_SETPT_M2, t1, t2, t3, t4, speed, 0, 0, ctrl] else sd
  let sd := if motor_number = .Motor_ID_BOTH then sd.writeByte SmartDrive_COMMAND 0x53 else sd
  let sd := if wait_for_completion then sd.call (.sleep 1) else sd
  sd.WaitUntilTachoDone motor_number budget

def SetPerformanceParameters (sd : SmartDrive) (Kp_tacho Ki_tacho Kd_tacho Kp_speed Ki_speed
    Kd_speed passcount tolerance : Nat) : SmartDrive :=
  let Kp_t1 := (Kp_tacho % 0x100) % 256
  let Kp_t2 := (Kp_tacho / 0x100) % 256
  let Ki_t1 := (Ki_tacho % 0x100) % 256
  let Ki_t2 := (Ki_tacho / 0x100) % 256
  let Kd_t1 := (Kd_tacho % 0x100) % 256
  let Kd_t2 := (Kd_tacho / 0x100) % 256
  let Kp_s1 := (Kp_speed % 0x100) % 256
  let Kp_s2 := (Kp_speed / 0x100) % 256
  let Ki_s1 := (Ki_speed % 0x100) % 256
  let Ki_s2 := (Ki_speed / 0x100) % 256
  let Kd_s1 := (Kd_speed % 0x100) % 256
  let Kd_s2 := (Kd_speed / 0x100) % 256
  sd.writeArray [SmartDrive_P_Kp, Kp_t1, Kp_t2, Ki_t1, Ki_t2, Kd_t1, Kd_t2, Kp_s1, Kp_s2,
    Ki_s1, Ki_s2, Kd_s1, Kd_s2, passcount, tolerance]

def ReadPerformanceParameters (sd : SmartDrive) : SmartDrive :=
  let sd := (sd.readInteger SmartDrive_P_Kp).2
  let sd := (sd.readInteger SmartDrive_P_Ki).2
  let sd := (sd.readInteger SmartDrive_P_Kd).2
  let sd := (sd.readInteger SmartDrive_S_Kp).2
  let sd := (sd.readInteger SmartDrive_S_Ki).2
  (sd.readInteger SmartDrive_S_Kd).2

def GetMotorStatus (sd : SmartDrive) (motor_id : MotorID_t) : Nat × SmartDrive :=
  let status := 0
  let (status, sd) :=
    if motor_id = .Motor_ID_1 then sd.readByte SmartDrive_STATUS_M1 else (status, sd)
  let (status, sd) :=
    if motor_id = .Motor_ID_2 then sd.readByte SmartDrive_STATUS_M1 else (status, sd)
  (status, sd)

def PrintMotorStatus (sd : SmartDrive) (motor_id : MotorID_t) : SmartDrive :=
  if motor_id ≠ .Motor_ID_BOTH then (sd.GetMotorStatus motor_id).2 else sd

end SmartDrive

/-! ## Observations on a log -/

/-- Data transfers: every transport call that moves data (not `address`, not a delay). -/
def Call.isTransfer : Call → Bool
  | .writeReg _ _ => true
  | .readReg _ => true
  | .write _ => true
  | .readWordReg _ => true
  | .readBytesReg _ _ => true
  | _ => false

def Call.isWrite : Call → Bool
  | .writeReg _ _ => true
  | .write _ => true
  | _ => false

def Call.isRead : Call → Bool
  | .readReg _ => true
  | .readWordReg _ => true
  | .readBytesReg _ _ => true
  | _ => false

/-- The calls made between state `before` and the later state `after`. -/
def callsSince (before after : SmartDrive) : List Call :=
  after.log.drop before.log.length

def transfers (l : List Call) : List Call := l.filter Call.isTransfer

def writes (l : List Call) : List Call := l.filter Call.isWrite

def reads (l : List Call) : List Call := l.filter Call.isRead

/-- The buffer of a call to `I2c::write`. -/
def Call.block? : Call → Option (List Nat)
  | .write data => some data
  | _ => none

/-- The buffers written with `I2c::write`, in order. -/
def blocks (l : List Call) : List (List Nat) := l.filterMap Call.block?

/-- A board whose registers never change: register `r` holds `f r`. -/
def Device.const (f : Nat → Nat) : Device := ⟨fun _ r => f r⟩

/-- A driver on the default address `0x36 >> 1` whose board holds `f r` in register `r`. -/
def onBoard (f : Nat → Nat) : SmartDrive := SmartDrive.create (Device.const f) 0x1B

/-- The status registers of the selected motors. -/
def statusRegs : MotorID_t → List Nat
  | .Motor_ID_1 => [SmartDrive_STATUS_M1]
  | .Motor_ID_2 => [SmartDrive_STATUS_M2]
  | .Motor_ID_BOTH => [SmartDrive_STATUS_M1, SmartDrive_STATUS_M2]

/-! ## Vocabulary for the statements -/

/-- Each transfer preceded by the select of bus address `a`. -/
def withSelect (a : Nat) : List Call → List Call
  | [] => []
  | c :: l => .address a :: c :: withSelect a l

/-- Writes of a run command: one block `r :: body` per selected motor (`r1` for
Motor 1, `r2` for Motor 2), then the shared start byte when both are selected. -/
def perMotor (m : MotorID_t) (r1 r2 : Nat) (body : List Nat) : List Call :=
  match m with
  | .Motor_ID_1 => [.write (r1 :: body)]
  | .Motor_ID_2 => [.write (r2 :: body)]
  | .Motor_ID_BOTH => [.write (r1 :: body), .write (r2 :: body), .writeReg 0x41 0x53]

/-- BRAKE and HOLD-ON bits of a stop action. -/
def actionBits : MotorAction_t → Nat
  | .Action_Float => 0
  | .Action_Brake => 0x10
  | .Action_BrakeHold => 0x30

/-- GO bit of a motor selector. -/
def goBit : MotorID_t → Nat
  | .Motor_ID_BOTH => 0
  | _ => 0x80

/-- Speed byte for a direction. -/
def signedSpeed (direction : Direction_t) (speed : Nat) : Nat :=
  match direction with
  | .Dir_Forward => speed
  | .Dir_Reverse => u8 (-(speed : Int))

/-- Displacement for a direction, as an unsigned 32-bit value. -/
def signedDisp (direction : Direction_t) (d : Nat) : Nat :=
  match direction with
  | .Dir_Forward => d
  | .Dir_Reverse => u32 (-(d : Int))

/-- Displacement `Run_Rotations` encodes: `rotations * 360`, negated for Reverse,
as an unsigned 32-bit value. -/
def rotationsDisp (direction : Direction_t) (rotations : Nat) : Nat :=
  match direction with
  | .Dir_Forward => u32 ((rotations : Int) * 360)
  | .Dir_Reverse => u32 (-((rotations : Int) * 360))

/-- Little-endian value of the four displacement bytes of a 9-byte block
(positions 1 to 4). -/
def setpointOf (b : List Nat) : Nat :=
  b.getD 1 0 + 256 * b.getD 2 0 + 65536 * b.getD 3 0 + 16777216 * b.getD 4 0

/-- Control byte of a block: its last byte. -/
def ctrlByte (b : List Nat) : Nat := b.getLastD 0

/-- The GO rule on the writes `ws` of a run command whose blocks start at register
`r1` for Motor 1 and `r2` for Motor 2: a single motor gets one block with GO set and
nothing else is written; both motors get their blocks with GO clear, Motor 1
first, and then the start byte `0x53` on the command register. -/
def goRule (m : MotorID_t) (r1 r2 : Nat) (ws : List Call) : Prop :=
  match m with
  | .Motor_ID_1 => ∃ b, ws = [.write b] ∧ b.head? = some r1 ∧ ctrlByte b &&& 0x80 = 0x80
  | .Motor_ID_2 => ∃ b, ws = [.write b] ∧ b.head? = some r2 ∧ ctrlByte b &&& 0x80 = 0x80
  | .Motor_ID_BOTH => ∃ b1 b2, ws = [.write b1, .write b2, .writeReg 0x41 0x53] ∧
      b1.head? = some r1 ∧ b2.head? = some r2 ∧
      ctrlByte b1 &&& 0x80 = 0 ∧ ctrlByte b2 &&& 0x80 = 0

/-- The stop-action rule on a control byte `c`: BRAKE is bit `0x10`, HOLD-ON is
bit `0x20`. -/
def stopRule (a : MotorAction_t) (c : Nat) : Prop :=
  match a with
  | .Action_Float => c &&& 0x10 = 0 ∧ c &&& 0x20 = 0
  | .Action_Brake => c &&& 0x10 = 0x10 ∧ c &&& 0x20 = 0
  | .Action_BrakeHold => c &&& 0x10 = 0x10 ∧ c &&& 0x20 = 0x20

/-- The four read-backs `Run_Seconds` makes after its writes. -/
def secondsReadback : List Call :=
  [.readReg 0x46, .readReg 0x4E, .readReg 0x47, .readReg 0x4F]

/-- Every data transfer in `l` comes right after a select of bus address `a`;
`prev` is the call made just before `l`, if any. -/
def selectedFrom (a : Nat) (prev : Option Call) : List Call → Bool
  | [] => true
  | c :: l =>
    (!c.isTransfer || decide (prev = some (Call.address a))) && selectedFrom a (some c) l

/-- Every data transfer among the calls `l` of an operation comes right after a
select of bus address `a` made by the same operation. -/
def eachSelected (a : Nat) (l : List Call) : Bool := selectedFrom a none l

/-- A polling loop with predicate `pred` and inter-poll call `delay`: the common
shape of `WaitUntilTimeDone` and `WaitUntilTachoDone`. -/
def pollLoop (pred : SmartDrive → Bool × SmartDrive) (delay : Call) (sd : SmartDrive) :
    Nat → Polled
  | 0 => ⟨sd, false⟩
  | budget + 1 =>
    if (pred sd).1 = false then
      pollLoop pred delay ((pred sd).2.call delay) budget
    else
      ⟨(pred sd).2, true⟩

/-- The driver state in which poll number `j` (counting from 0) of a polling loop
starts, when none of the polls before it ends the loop. -/
def beforePoll (pred : SmartDrive → Bool × SmartDrive) (delay : Call) (sd : SmartDrive) :
    Nat → SmartDrive
  | 0 => sd
  | j + 1 => beforePoll pred delay ((pred sd).2.call delay) j

/-- The calls of one evaluation of `IsTimeDone` or `IsTachoDone`: the status
registers of the selected motors, each read after a select of `a`. -/
def pollCalls (a : Nat) (m : MotorID_t) : List Call :=
  withSelect a ((statusRegs m).map Call.readReg)

/-- The bytes `low` and `high` are the two halves of the 16-bit gain `g`, neither
truncated. -/
def splitsGain (g low high : Nat) : Prop :=
  low = g % 256 ∧ high = g / 256 ∧ low < 256 ∧ high < 256 ∧ low + high * 256 = g

/-- Register auto-increment: the data bytes `data`, written from register `r` on,
land on `r`, `r + 1`, ... -/
def landFrom (r : Nat) : List Nat → List (Nat × Nat)
  | [] => []
  | v :: data => (r, v) :: landFrom (r + 1) data

/-- Where the bytes of a written buffer land, as (register, value) pairs: byte 0
names the first register and byte `i ≥ 1` lands on register `buffer[0] + i - 1`. -/
def landing : List Nat → List (Nat × Nat)
  | [] => []
  | r :: data => landFrom r data

/-- The calls of a polling loop that ends at poll number `k`: `k + 1` evaluations
of the predicate, each making the calls `pc`, with one `delay` between consecutive
evaluations. -/
def pollTrace (pc : List Call) (delay : Call) : Nat → List Call
  | 0 => pc
  | k + 1 => pc ++ delay :: pollTrace pc delay k

/-- A board whose registers all read `0xFF` until transport call `t0` and `0` from
then on: every status bit clears at that moment. -/
def Device.busyUntil (t0 : Nat) : Device := ⟨fun t _ => if t < t0 then 0xFF else 0⟩

/-- The registers of one motor's command block, as `smartdrive.h` names them. -/
structure MotorRegs where
  SETPT : Nat
  SPEED : Nat
  TIME : Nat
  CMD_B : Nat
  CMD_A : Nat

/-- Command-block registers of Motor 1. -/
def regsM1 : MotorRegs :=
  ⟨SmartDrive_SETPT_M1, SmartDrive_SPEED_M1, SmartDrive_TIME_M1, SmartDrive_CMD_B_M1,
    SmartDrive_CMD_A_M1⟩

/-- Command-block registers of Motor 2. -/
def regsM2 : MotorRegs :=
  ⟨SmartDrive_SETPT_M2, SmartDrive_SPEED_M2, SmartDrive_TIME_M2, SmartDrive_CMD_B_M2,
    SmartDrive_CMD_A_M2⟩

/-- The command-block registers of the selected motors, Motor 1 first. -/
def selectedRegs : MotorID_t → List MotorRegs
  | .Motor_ID_1 => [regsM1]
  | .Motor_ID_2 => [regsM2]
  | .Motor_ID_BOTH => [regsM1, regsM2]

/-- All eight registers of a motor's command block: the four setpoint bytes, then
speed, time, command B and command A. -/
def MotorRegs.all (R : MotorRegs) : List Nat :=
  [R.SETPT, R.SETPT + 1, R.SETPT + 2, R.SETPT + 3, R.SPEED, R.TIME, R.CMD_B, R.CMD_A]

/-- Landing of a 5-byte speed block on the registers `R`. -/
def speedBlockOn (R : MotorRegs) (speed time ctrl : Nat) : List (Nat × Nat) :=
  [(R.SPEED, speed), (R.TIME, time), (R.CMD_B, 0), (R.CMD_A, ctrl)]

/-- Landing of a 9-byte setpoint block encoding displacement `d` on the registers `R`. -/
def setpointBlockOn (R : MotorRegs) (d speed ctrl : Nat) : List (Nat × Nat) :=
  [(R.SETPT, d % 256), (R.SETPT + 1, d / 256 % 256), (R.SETPT + 2, d / 65536 % 256),
   (R.SETPT + 3, d / 16777216 % 256), (R.SPEED, speed), (R.TIME, 0), (R.CMD_B, 0),
   (R.CMD_A, ctrl)]

/-! ## Basic facts about the log -/

namespace SmartDrive

@[simp] theorem log_call (sd : SmartDrive) (c : Call) : (sd.call c).log = sd.log ++ [c] := rfl

@[simp] theorem m_controlAddr_call (sd : SmartDrive) (c : Call) :
    (sd.call c).m_controlAddr = sd.m_controlAddr := rfl

@[simp] theorem board_call (sd : SmartDrive) (c : Call) : (sd.call c).board = sd.board := rfl

end SmartDrive

@[simp] theorem callsSince_append (sd sd1 : SmartDrive) (l : List Call)
    (h : sd1.log = sd.log ++ l) : callsSince sd sd1 = l := by
  simp [callsSince, h]

theorem writes_append (l l2 : List Call) : writes (l ++ l2) = writes l ++ writes l2 := by
  simp [writes]

theorem blocks_append (l l2 : List Call) : blocks (l ++ l2) = blocks l ++ blocks l2 := by
  simp [blocks]

theorem writes_eq_nil (l : List Call) (h : ∀ c ∈ l, c.isWrite = false) : writes l = [] := by
  simp only [writes, List.filter_eq_nil_iff]
  intro c hc
  simp [h c hc]

theorem blocks_eq_nil (l : List Call) (h : ∀ c ∈ l, c.isWrite = false) : blocks l = [] := by
  simp only [blocks, List.filterMap_eq_nil_iff]
  intro c hc
  have := h c hc
  cases c <;> simp_all [Call.block?, Call.isWrite]

namespace SmartDrive

/-- One evaluation of `IsTachoDone` extends the log by calls that write nothing. -/
theorem IsTachoDone_log (sd : SmartDrive) (m : MotorID_t) :
    ∃ ext, (sd.IsTachoDone m).2.log = sd.log ++ ext ∧ ∀ c ∈ ext, c.isWrite = false := by
  cases m
  · exact ⟨[.address sd.m_controlAddr, .readReg 0x5A], by simp [IsTachoDone, readByte],
      by simp [Call.isWrite]⟩
  · exact ⟨[.address sd.m_controlAddr, .readReg 0x5B], by simp [IsTachoDone, readByte],
      by simp [Call.isWrite]⟩
  · exact ⟨[.address sd.m_controlAddr, .readReg 0x5A, .address sd.m_controlAddr,
      .readReg 0x5B], by simp [IsTachoDone, readByte], by simp [Call.isWrite]⟩

/-- One evaluation of `IsTimeDone` extends the log by calls that write nothing. -/
theorem IsTimeDone_log (sd : SmartDrive) (m : MotorID_t) :
    ∃ ext, (sd.IsTimeDone m).2.log = sd.log ++ ext ∧ ∀ c ∈ ext, c.isWrite = false := by
  cases m
  · exact ⟨[.address sd.m_controlAddr, .readReg 0x5A], by simp [IsTimeDone, readByte],
      by simp [Call.isWrite]⟩
  · exact ⟨[.address sd.m_controlAddr, .readReg 0x5B], by simp [IsTimeDone, readByte],
      by simp [Call.isWrite]⟩
  · exact ⟨[.address sd.m_controlAddr, .readReg 0x5A, .address sd.m_controlAddr,
      .readReg 0x5B], by simp [IsTimeDone, readByte], by simp [Call.isWrite]⟩

/-- Polling for the tacho bit writes nothing, whatever the budget. -/
theorem WaitUntilTachoDone_log (m : MotorID_t) (budget : Nat) : ∀ sd : SmartDrive,
    ∃ ext, (sd.WaitUntilTachoDone m budget).sd.log = sd.log ++ ext ∧
      ∀ c ∈ ext, c.isWrite = false := by
  induction budget with
  | zero => intro sd; exact ⟨[], by simp [WaitUntilTachoDone], by simp⟩
  | succ n ih =>
    intro sd
    obtain ⟨e1, h1, w1⟩ := IsTachoDone_log sd m
    unfold WaitUntilTachoDone
    by_cases hdone : (sd.IsTachoDone m).1 = false
    · obtain ⟨e2, h2, w2⟩ := ih ((sd.IsTachoDone m).2.call (.usleep 30000))
      refine ⟨e1 ++ [.usleep 30000] ++ e2, ?_, ?_⟩
      · simp [hdone, h2, h1]
      · intro c hc
        simp only [List.mem_append, List.mem_singleton] at hc
        rcases hc with (hc | hc) | hc
        · exact w1 c hc
        · subst hc; rfl
        · exact w2 c hc
    · exact ⟨e1, by simp [hdone, h1], w1⟩

/-- Polling for the time bit writes nothing, whatever the budget. -/
theorem WaitUntilTimeDone_log (m : MotorID_t) (budget : Nat) : ∀ sd : SmartDrive,
    ∃ ext, (sd.WaitUntilTimeDone m budget).sd.log = sd.log ++ ext ∧
      ∀ c ∈ ext, c.isWrite = false := by
  induction budget with
  | zero => intro sd; exact ⟨[], by simp [WaitUntilTimeDone], by simp⟩
  | succ n ih =>
    intro sd
    obtain ⟨e1, h1, w1⟩ := IsTimeDone_log sd m
    unfold WaitUntilTimeDone
    by_cases hdone : (sd.IsTimeDone m).1 = false
    · obtain ⟨e2, h2, w2⟩ := ih ((sd.IsTimeDone m).2.call (.sleep 1))
      refine ⟨e1 ++ [.sleep 1] ++ e2, ?_, ?_⟩
      · simp [hdone, h2, h1]
      · intro c hc
        simp only [List.mem_append, List.mem_singleton] at hc
        rcases hc with (hc | hc) | hc
        · exact w1 c hc
        · subst hc; rfl
        · exact w2 c hc
    · exact ⟨e1, by simp [hdone, h1], w1⟩

theorem wait_tacho_log (w : Bool) (X : SmartDrive) (m : MotorID_t) (budget : Nat) :
    ∃ ext, (if w = true then (X.call (.sleep 1)).WaitUntilTachoDone m budget
        else (⟨X, true⟩ : Polled)).sd.log = X.log ++ ext ∧ ∀ c ∈ ext, c.isWrite = false := by
  cases w
  · exact ⟨[], by simp, by simp⟩
  · obtain ⟨e, h, hw⟩ := WaitUntilTachoDone_log m budget (X.call (.sleep 1))
    refine ⟨.sleep 1 :: e, by simp [h], ?_⟩
    intro c hc
    rcases List.mem_cons.mp hc with hc | hc
    · subst hc; rfl
    · exact hw c hc

theorem wait_time_log (w : Bool) (X : SmartDrive) (m : MotorID_t) (budget : Nat) :
    ∃ ext, (if w = true then (X.call (.sleep 1)).WaitUntilTimeDone m budget
        else (⟨X, true⟩ : Polled)).sd.log = X.log ++ ext ∧ ∀ c ∈ ext, c.isWrite = false := by
  cases w
  · exact ⟨[], by simp, by simp⟩
  · obtain ⟨e, h, hw⟩ := WaitUntilTimeDone_log m budget (X.call (.sleep 1))
    refine ⟨.sleep 1 :: e, by simp [h], ?_⟩
    intro c hc
    rcases List.mem_cons.mp hc with hc | hc
    · subst hc; rfl
    · exact hw c hc

theorem always_wait_tacho_log (w : Bool) (X : SmartDrive) (m : MotorID_t) (budget : Nat) :
    ∃ ext, ((if w = true then X.call (.sleep 1) else X).WaitUntilTachoDone m budget).sd.log =
      X.log ++ ext ∧ ∀ c ∈ ext, c.isWrite = false := by
  cases w
  · simpa using WaitUntilTachoDone_log m budget X
  · obtain ⟨e, h, hw⟩ := WaitUntilTachoDone_log m budget (X.call (.sleep 1))
    refine ⟨.sleep 1 :: e, by simp [h], ?_⟩
    intro c hc
    rcases List.mem_cons.mp hc with hc | hc
    · subst hc; rfl
    · exact hw c hc

end SmartDrive

/-! ## The writes of the five run commands -/

theorem writes_withSelect (a : Nat) (l : List Call) (h : ∀ c ∈ l, c.isWrite = true) :
    writes (withSelect a l) = l := by
  induction l with
  | nil => rfl
  | cons c l ih =>
    have hc := h c (List.mem_cons_self _ _)
    have hl := ih (fun x hx => h x (List.mem_cons_of_mem _ hx))
    simp only [writes] at hl
    simp [withSelect, writes, List.filter_cons, hc, hl,
      show Call.isWrite (Call.address a) = false from rfl]

theorem perMotor_isWrite (m : MotorID_t) (r1 r2 : Nat) (body : List Nat) :
    ∀ c ∈ perMotor m r1 r2 body, c.isWrite = true := by
  cases m <;> simp [perMotor, Call.isWrite]

/-- If an operation extends the log by selected writes `ws` and then by calls that
write nothing, its writes are `ws`. -/
theorem writes_of_log (sd sd1 : SmartDrive) (ws ext : List Call)
    (h : sd1.log = sd.log ++ withSelect sd.m_controlAddr ws ++ ext)
    (hws : ∀ c ∈ ws, c.isWrite = true) (hext : ∀ c ∈ ext, c.isWrite = false) :
    writes (callsSince sd sd1) = ws := by
  rw [callsSince_append sd sd1 (withSelect sd.m_controlAddr ws ++ ext) (by simp [h])]
  rw [writes_append, writes_withSelect _ _ hws, writes_eq_nil _ hext]
  simp

namespace SmartDrive

theorem Run_Degrees_nowait_log (sd : SmartDrive) (m : MotorID_t) (direction : Direction_t)
    (s d : Nat) (a : MotorAction_t) :
    (sd.Run_Degrees m direction s d false a 0).sd.log =
      sd.log ++ withSelect sd.m_controlAddr (perMotor m 0x42 0x4A
        [signedDisp direction d % 256, signedDisp direction d / 256 % 256,
         signedDisp direction d / 65536 % 256, signedDisp direction d / 16777216 % 256,
         s, 0, 0, 0x0D + actionBits a + goBit m]) := by
  cases m <;> cases direction <;> cases a <;>
    simp [Run_Degrees, writeArray, writeByte, perMotor, withSelect, signedDisp, actionBits,
      goBit, u32] <;> omega

theorem Run_Degrees_log (sd : SmartDrive) (m : MotorID_t) (direction : Direction_t)
    (s d : Nat) (w : Bool) (a : MotorAction_t) (budget : Nat) :
    ∃ ext, (sd.Run_Degrees m direction s d w a budget).sd.log =
      sd.log ++ withSelect sd.m_controlAddr (perMotor m 0x42 0x4A
        [signedDisp direction d % 256, signedDisp direction d / 256 % 256,
         signedDisp direction d / 65536 % 256, signedDisp direction d / 16777216 % 256,
         s, 0, 0, 0x0D + actionBits a + goBit m]) ++ ext ∧
      ∀ c ∈ ext, c.isWrite = false := by
  rw [← Run_Degrees_nowait_log]
  exact wait_tacho_log w _ m budget

theorem Run_Rotations_nowait_log (sd : SmartDrive) (m : MotorID_t) (direction : Direction_t)
    (s r : Nat) (a : MotorAction_t) :
    (sd.Run_Rotations m direction s r false a 0).sd.log =
      sd.log ++ withSelect sd.m_controlAddr (perMotor m 0x42 0x4A
        [rotationsDisp direction r % 256, rotationsDisp direction r / 256 % 256,
         rotationsDisp direction r / 65536 % 256, rotationsDisp direction r / 16777216 % 256,
         s, 0, 0, 0x0D + actionBits a + goBit m]) := by
  cases m <;> cases direction <;> cases a <;>
    simp [Run_Rotations, writeArray, writeByte, perMotor, withSelect, rotationsDisp,
      actionBits, goBit] <;> omega

theorem Run_Rotations_log (sd : SmartDrive) (m : MotorID_t) (direction : Direction_t)
    (s r : Nat) (w : Bool) (a : MotorAction_t) (budget : Nat) :
    ∃ ext, (sd.Run_Rotations m direction s r w a budget).sd.log =
      sd.log ++ withSelect sd.m_controlAddr (perMotor m 0x42 0x4A
        [rotationsDisp direction r % 256, rotationsDisp direction r / 256 % 256,
         rotationsDisp direction r / 65536 % 256, rotationsDisp direction r / 16777216 % 256,
         s, 0, 0, 0x0D + actionBits a + goBit m]) ++ ext ∧
      ∀ c ∈ ext, c.isWrite = false := by
  rw [← Run_Rotations_nowait_log]
  exact wait_tacho_log w _ m budget

theorem Run_Tacho_nowait_log (sd : SmartDrive) (m : MotorID_t) (s t : Nat)
    (a : MotorAction_t) :
    (sd.Run_Tacho m s t false a 0).sd.log =
      sd.log ++ withSelect sd.m_controlAddr (perMotor m 0x42 0x4A
        [t % 256, t / 256 % 256, t / 65536 % 256, t / 16777216 % 256,
         s, 0, 0, 0x09 + actionBits a + goBit m]) := by
  cases m <;> cases a <;>
    simp [Run_Tacho, writeArray, writeByte, perMotor, withSelect, actionBits, goBit,
      WaitUntilTachoDone] <;> omega

theorem Run_Tacho_log (sd : SmartDrive) (m : MotorID_t) (s t : Nat) (w : Bool)
    (a : MotorAction_t) (budget : Nat) :
    ∃ ext, (sd.Run_Tacho m s t w a budget).sd.log =
      sd.log ++ withSelect sd.m_controlAddr (perMotor m 0x42 0x4A
        [t % 256, t / 256 % 256, t / 65536 % 256, t / 16777216 % 256,
         s, 0, 0, 0x09 + actionBits a + goBit m]) ++ ext ∧
      ∀ c ∈ ext, c.isWrite = false := by
  rw [← Run_Tacho_nowait_log]
  exact always_wait_tacho_log w _ m budget

theorem Run_Unlimited_log (sd : SmartDrive) (m : MotorID_t) (direction : Direction_t)
    (s : Nat) :
    (sd.Run_Unlimited m direction s).log =
      sd.log ++ withSelect sd.m_controlAddr (perMotor m 0x46 0x4E
        [signedSpeed direction s, 0, 0, 0x11 + goBit m]) := by
  cases m <;> cases direction <;>
    simp [Run_Unlimited, writeArray, writeByte, perMotor, withSelect, signedSpeed, goBit]

theorem Run_Seconds_nowait_log (sd : SmartDrive) (m : MotorID_t) (direction : Direction_t)
    (s t : Nat) (a : MotorAction_t) :
    (sd.Run_Seconds m direction s t false a 0).sd.log =
      sd.log ++ withSelect sd.m_controlAddr (perMotor m 0x46 0x4E
        [signedSpeed direction s, t, 0, 0x41 + actionBits a + goBit m]) ++
      withSelect sd.m_controlAddr secondsReadback := by
  cases m <;> cases direction <;> cases a <;>
    simp [Run_Seconds, writeArray, writeByte, readByte, perMotor, withSelect, signedSpeed,
      actionBits, goBit, secondsReadback, MotorID_t.toNat]

theorem Run_Seconds_log (sd : SmartDrive) (m : MotorID_t) (direction : Direction_t)
    (s t : Nat) (w : Bool) (a : MotorAction_t) (budget : Nat) :
    ∃ ext, (sd.Run_Seconds m direction s t w a budget).sd.log =
      sd.log ++ withSelect sd.m_controlAddr (perMotor m 0x46 0x4E
        [signedSpeed direction s, t, 0, 0x41 + actionBits a + goBit m]) ++ ext ∧
      ∀ c ∈ ext, c.isWrite = false := by
  obtain ⟨e, h, hw⟩ := wait_time_log w (sd.Run_Seconds m direction s t false a 0).sd m budget
  refine ⟨withSelect sd.m_controlAddr secondsReadback ++ e, ?_, ?_⟩
  · rw [← List.append_assoc, ← Run_Seconds_nowait_log]
    exact h
  · intro c hc
    rcases List.mem_append.mp hc with hc | hc
    · have hr : ∀ x ∈ withSelect sd.m_controlAddr secondsReadback, x.isWrite = false := by
        simp [secondsReadback, withSelect, Call.isWrite]
      exact hr c hc
    · exact hw c hc

end SmartDrive

theorem blocks_writes (l : List Call) : blocks (writes l) = blocks l := by
  induction l with
  | nil => rfl
  | cons c l ih =>
    simp only [blocks, writes] at ih
    cases c <;> simp [blocks, writes, List.filter_cons, Call.isWrite, Call.block?, ih]

namespace SmartDrive

theorem Run_Unlimited_writes (sd : SmartDrive) (m : MotorID_t) (direction : Direction_t)
    (s : Nat) :
    writes (callsSince sd (sd.Run_Unlimited m direction s)) =
      perMotor m 0x46 0x4E [signedSpeed direction s, 0, 0, 0x11 + goBit m] :=
  writes_of_log _ _ _ [] (by simp [Run_Unlimited_log]) (perMotor_isWrite _ _ _ _) (by simp)

theorem Run_Seconds_writes (sd : SmartDrive) (m : MotorID_t) (direction : Direction_t)
    (s t : Nat) (w : Bool) (a : MotorAction_t) (budget : Nat) :
    writes (callsSince sd (sd.Run_Seconds m direction s t w a budget).sd) =
      perMotor m 0x46 0x4E [signedSpeed direction s, t, 0, 0x41 + actionBits a + goBit m] := by
  obtain ⟨e, h, hw⟩ := Run_Seconds_log sd m direction s t w a budget
  exact writes_of_log _ _ _ e h (perMotor_isWrite _ _ _ _) hw

theorem Run_Degrees_writes (sd : SmartDrive) (m : MotorID_t) (direction : Direction_t)
    (s d : Nat) (w : Bool) (a : MotorAction_t) (budget : Nat) :
    writes (callsSince sd (sd.Run_Degrees m direction s d w a budget).sd) =
      perMotor m 0x42 0x4A
        [signedDisp direction d % 256, signedDisp direction d / 256 % 256,
         signedDisp direction d / 65536 % 256, signedDisp direction d / 16777216 % 256,
         s, 0, 0, 0x0D + actionBits a + goBit m] := by
  obtain ⟨e, h, hw⟩ := Run_Degrees_log sd m direction s d w a budget
  exact writes_of_log _ _ _ e h (perMotor_isWrite _ _ _ _) hw

theorem Run_Rotations_writes (sd : SmartDrive) (m : MotorID_t) (direction : Direction_t)
    (s r : Nat) (w : Bool) (a : MotorAction_t) (budget : Nat) :
    writes (callsSince sd (sd.Run_Rotations m direction s r w a budget).sd) =
      perMotor m 0x42 0x4A
        [rotationsDisp direction r % 256, rotationsDisp direction r / 256 % 256,
         rotationsDisp direction r / 65536 % 256, rotationsDisp direction r / 16777216 % 256,
         s, 0, 0, 0x0D + actionBits a + goBit m] := by
  obtain ⟨e, h, hw⟩ := Run_Rotations_log sd m direction s r w a budget
  exact writes_of_log _ _ _ e h (perMotor_isWrite _ _ _ _) hw

theorem Run_Tacho_writes (sd : SmartDrive) (m : MotorID_t) (s t : Nat) (w : Bool)
    (a : MotorAction_t) (budget : Nat) :
    writes (callsSince sd (sd.Run_Tacho m s t w a budget).sd) =
      perMotor m 0x42 0x4A
        [t % 256, t / 256 % 256, t / 65536 % 256, t / 16777216 % 256,
         s, 0, 0, 0x09 + actionBits a + goBit m] := by
  obtain ⟨e, h, hw⟩ := Run_Tacho_log sd m s t w a budget
  exact writes_of_log _ _ _ e h (perMotor_isWrite _ _ _ _) hw

end SmartDrive

theorem goRule_perMotor (m : MotorID_t) (r1 r2 : Nat) (body : List Nat) (c : Nat)
    (h1 : m ≠ .Motor_ID_BOTH → c &&& 0x80 = 0x80) (h2 : m = .Motor_ID_BOTH → c &&& 0x80 = 0) :
    goRule m r1 r2 (perMotor m r1 r2 (body ++ [c])) := by
  have hc : ctrlByte (r1 :: (body ++ [c])) = c ∧ ctrlByte (r2 :: (body ++ [c])) = c := by
    constructor <;>
    · unfold ctrlByte
      rw [List.getLastD_eq_getLast?, ← List.cons_append, List.getLast?_concat]
      rfl
  cases m
  · exact ⟨_, rfl, rfl, by rw [hc.1]; exact h1 (by decide)⟩
  · exact ⟨_, rfl, rfl, by rw [hc.2]; exact h1 (by decide)⟩
  · exact ⟨_, _, rfl, rfl, rfl, by rw [hc.1]; exact h2 rfl, by rw [hc.2]; exact h2 rfl⟩

theorem go_bits (m : MotorID_t) (a : MotorAction_t) (base : Nat)
    (hb : base = 0x41 ∨ base = 0x0D ∨ base = 0x09 ∨ base = 0x11) :
    (m ≠ .Motor_ID_BOTH → (base + actionBits a + goBit m) &&& 0x80 = 0x80) ∧
    (m = .Motor_ID_BOTH → (base + actionBits a + goBit m) &&& 0x80 = 0) := by
  rcases hb with h | h | h | h <;> subst h <;> cases m <;> cases a <;> decide

/-- C1. `Run_Degrees` on Motor 1 without waiting returns after exactly one data
transfer, the 9-byte buffer write `{0x42, b0, b1, b2, b3, s, 0, 0, ctrl}` (preceded
by the address select): `b0..b3` are the little-endian bytes of `d` (Forward) or of
`-d mod 2^32` (Reverse), the speed byte is `s`, and `ctrl` is
SPEED|TACHO|RELATIVE|GO (0x8D) plus the stop-action bits.  Nothing is written to
the command register and nothing is read. -/
theorem Run_Degrees_motor1_one_block (sd : SmartDrive) (direction : Direction_t)
    (s d : Nat) (action : MotorAction_t) (budget : Nat) (hd : d < 4294967296) :
    (sd.Run_Degrees .Motor_ID_1 direction s d false action budget).returned = true ∧
    callsSince sd (sd.Run_Degrees .Motor_ID_1 direction s d false action budget).sd =
      [.address sd.m_controlAddr,
       .write [0x42,
         (match direction with
           | .Dir_Forward => d
           | .Dir_Reverse => (4294967296 - d) % 4294967296) % 256,
         (match direction with
           | .Dir_Forward => d
           | .Dir_Reverse => (4294967296 - d) % 4294967296) / 256 % 256,
         (match direction with
           | .Dir_Forward => d
           | .Dir_Reverse => (4294967296 - d) % 4294967296) / 65536 % 256,
         (match direction with
           | .Dir_Forward => d
           | .Dir_Reverse => (4294967296 - d) % 4294967296) / 16777216 % 256,
         s, 0, 0,
         0x8D + (match action with
           | .Action_Float => 0
           | .Action_Brake => 0x10
           | .Action_BrakeHold => 0x30)]] ∧
    (transfers (callsSince sd
      (sd.Run_Degrees .Motor_ID_1 direction s d false action budget).sd)).length = 1 := by
  have hlog : (sd.Run_Degrees .Motor_ID_1 direction s d false action budget).sd.log =
      sd.log ++ [.address sd.m_controlAddr,
       .write [0x42,
         (match direction with
           | .Dir_Forward => d
           | .Dir_Reverse => (4294967296 - d) % 4294967296) % 256,
         (match direction with
           | .Dir_Forward => d
           | .Dir_Reverse => (4294967296 - d) % 4294967296) / 256 % 256,
         (match direction with
           | .Dir_Forward => d
           | .Dir_Reverse => (4294967296 - d) % 4294967296) / 65536 % 256,
         (match direction with
           | .Dir_Forward => d
           | .Dir_Reverse => (4294967296 - d) % 4294967296) / 16777216 % 256,
         s, 0, 0,
         0x8D + (match action with
           | .Action_Float => 0
           | .Action_Brake => 0x10
           | .Action_BrakeHold => 0x30)]] := by
    cases direction <;> cases action <;>
      simp [SmartDrive.Run_Degrees, SmartDrive.writeArray, u32] <;> omega
  refine ⟨?_, ?_, ?_⟩
  · simp [SmartDrive.Run_Degrees]
  · exact callsSince_append _ _ _ hlog
  · rw [callsSince_append _ _ _ hlog]
    simp [transfers, Call.isTransfer]

/-- The scenario of C1 evaluated: Motor 1, Forward, speed 50, 720 degrees, no wait,
Brake gives the block `{0x42, 0xD0, 0x02, 0, 0, 0x32, 0, 0, 0x9D}`. -/
theorem Run_Degrees_motor1_one_block_witness :
    (720 : Nat) < 4294967296 ∧
    callsSince (onBoard fun _ => 0)
      ((onBoard fun _ => 0).Run_Degrees .Motor_ID_1 .Dir_Forward 50 720 false
        .Action_Brake 0).sd =
      [.address 0x1B, .write [0x42, 0xD0, 0x02, 0x00, 0x00, 0x32, 0x00, 0x00, 0x9D]] ∧
    0x9D = SmartDrive_CONTROL_SPEED ||| SmartDrive_CONTROL_TACHO |||
      SmartDrive_CONTROL_RELATIVE ||| SmartDrive_CONTROL_BRK ||| SmartDrive_CONTROL_GO :=
  ⟨by decide,
   (Run_Degrees_motor1_one_block (onBoard fun _ => 0) .Dir_Forward 50 720 .Action_Brake 0
      (by decide)).2.1.trans (by decide),
   by decide⟩

/-- C2. For each of the five run commands and all arguments: with a single motor
selected the writes are exactly one per-motor block, whose control byte has GO
(0x80) set, and nothing is written to the command register; with both motors
selected the writes are the Motor-1 block, the Motor-2 block, both with GO clear,
and then one write of 0x53 to register 0x41.  This holds for every polling budget,
hence whether or not the call has returned. -/
theorem run_commands_go_rule (sd : SmartDrive) (m : MotorID_t) (direction : Direction_t)
    (speed duration degrees rotations tacho_count : Nat) (wait : Bool) (action : MotorAction_t)
    (budget : Nat) :
    goRule m 0x46 0x4E (writes (callsSince sd (sd.Run_Unlimited m direction speed))) ∧
    goRule m 0x46 0x4E (writes (callsSince sd
      (sd.Run_Seconds m direction speed duration wait action budget).sd)) ∧
    goRule m 0x42 0x4A (writes (callsSince sd
      (sd.Run_Degrees m direction speed degrees wait action budget).sd)) ∧
    goRule m 0x42 0x4A (writes (callsSince sd
      (sd.Run_Rotations m direction speed rotations wait action budget).sd)) ∧
    goRule m 0x42 0x4A (writes (callsSince sd
      (sd.Run_Tacho m speed tacho_count wait action budget).sd)) := by
  refine ⟨?_, ?_, ?_, ?_, ?_⟩
  · rw [SmartDrive.Run_Unlimited_writes]
    have h := go_bits m .Action_Float 0x11 (by simp)
    exact goRule_perMotor m _ _ [_, _, _] _ h.1 h.2
  · rw [SmartDrive.Run_Seconds_writes]
    have h := go_bits m action 0x41 (by simp)
    exact goRule_perMotor m _ _ [_, _, _] _ h.1 h.2
  · rw [SmartDrive.Run_Degrees_writes]
    have h := go_bits m action 0x0D (by simp)
    exact goRule_perMotor m _ _ [_, _, _, _, _, _, _] _ h.1 h.2
  · rw [SmartDrive.Run_Rotations_writes]
    have h := go_bits m action 0x0D (by simp)
    exact goRule_perMotor m _ _ [_, _, _, _, _, _, _] _ h.1 h.2
  · rw [SmartDrive.Run_Tacho_writes]
    have h := go_bits m action 0x09 (by simp)
    exact goRule_perMotor m _ _ [_, _, _, _, _, _, _] _ h.1 h.2

theorem mem_blocks_perMotor (m : MotorID_t) (r1 r2 : Nat) (body b : List Nat)
    (h : b ∈ blocks (perMotor m r1 r2 body)) : b = r1 :: body ∨ b = r2 :: body := by
  cases m <;> simp [blocks, perMotor, Call.block?] at h <;> tauto

theorem blocks_perMotor_ne_nil (m : MotorID_t) (r1 r2 : Nat) (body : List Nat) :
    blocks (perMotor m r1 r2 body) ≠ [] := by
  cases m <;> simp [blocks, perMotor, Call.block?]

/-- The blocks among the calls of an operation are those among its writes. -/
theorem blocks_of_writes (l ws : List Call) (h : writes l = ws) : blocks l = blocks ws := by
  rw [← h, blocks_writes]

theorem stop_bits (m : MotorID_t) (a : MotorAction_t) (base : Nat)
    (hb : base = 0x41 ∨ base = 0x0D ∨ base = 0x09) :
    stopRule a (base + actionBits a + goBit m) := by
  rcases hb with h | h | h <;> subst h <;> cases m <;> cases a <;>
    simp only [stopRule, actionBits, goBit] <;> decide

theorem stopRule_blocks (l : List Call) (m : MotorID_t) (a : MotorAction_t) (r1 r2 : Nat)
    (body : List Nat) (c : Nat) (h : writes l = perMotor m r1 r2 (body ++ [c]))
    (hc : stopRule a c) :
    blocks l ≠ [] ∧ ∀ b ∈ blocks l, stopRule a (ctrlByte b) := by
  rw [blocks_of_writes l _ h]
  refine ⟨blocks_perMotor_ne_nil _ _ _ _, ?_⟩
  intro b hb
  have hl : ∀ r : Nat, ctrlByte (r :: (body ++ [c])) = c := by
    intro r
    unfold ctrlByte
    rw [List.getLastD_eq_getLast?, ← List.cons_append, List.getLast?_concat]
    rfl
  rcases mem_blocks_perMotor _ _ _ _ _ hb with hb | hb <;> subst hb <;> rw [hl] <;> exact hc

/-- C3. For `Run_Seconds`, `Run_Degrees`, `Run_Rotations` and `Run_Tacho` and all
arguments, at least one block is written and the control byte of every block
written satisfies: with `Action_Brake` BRAKE (0x10) is set and HOLD-ON (0x20) is
clear; with `Action_BrakeHold` both are set; with `Action_Float` both are clear. -/
theorem run_commands_stop_rule (sd : SmartDrive) (m : MotorID_t) (direction : Direction_t)
    (speed duration degrees rotations tacho_count : Nat) (wait : Bool) (action : MotorAction_t)
    (budget : Nat) :
    (blocks (callsSince sd
        (sd.Run_Seconds m direction speed duration wait action budget).sd) ≠ [] ∧
      ∀ b ∈ blocks (callsSince sd
        (sd.Run_Seconds m direction speed duration wait action budget).sd),
        stopRule action (ctrlByte b)) ∧
    (blocks (callsSince sd
        (sd.Run_Degrees m direction speed degrees wait action budget).sd) ≠ [] ∧
      ∀ b ∈ blocks (callsSince sd
        (sd.Run_Degrees m direction speed degrees wait action budget).sd),
        stopRule action (ctrlByte b)) ∧
    (blocks (callsSince sd
        (sd.Run_Rotations m direction speed rotations wait action budget).sd) ≠ [] ∧
      ∀ b ∈ blocks (callsSince sd
        (sd.Run_Rotations m direction speed rotations wait action budget).sd),
        stopRule action (ctrlByte b)) ∧
    (blocks (callsSince sd
        (sd.Run_Tacho m speed tacho_count wait action budget).sd) ≠ [] ∧
      ∀ b ∈ blocks (callsSince sd
        (sd.Run_Tacho m speed tacho_count wait action budget).sd),
        stopRule action (ctrlByte b)) := by
  refine ⟨?_, ?_, ?_, ?_⟩
  · exact stopRule_blocks _ m action _ _ [_, _, _] _
      (SmartDrive.Run_Seconds_writes sd m direction speed duration wait action budget)
      (stop_bits m action 0x41 (by simp))
  · exact stopRule_blocks _ m action _ _ [_, _, _, _, _, _, _] _
      (SmartDrive.Run_Degrees_writes sd m direction speed degrees wait action budget)
      (stop_bits m action 0x0D (by simp))
  · exact stopRule_blocks _ m action _ _ [_, _, _, _, _, _, _] _
      (SmartDrive.Run_Rotations_writes sd m direction speed rotations wait action budget)
      (stop_bits m action 0x0D (by simp))
  · exact stopRule_blocks _ m action _ _ [_, _, _, _, _, _, _] _
      (SmartDrive.Run_Tacho_writes sd m speed tacho_count wait action budget)
      (stop_bits m action 0x09 (by simp))

theorem speed_blocks (l : List Call) (m : MotorID_t) (r1 r2 x : Nat) (rest : List Nat)
    (h : writes l = perMotor m r1 r2 (x :: rest)) :
    blocks l ≠ [] ∧ ∀ b ∈ blocks l, b.getD 1 0 = x := by
  rw [blocks_of_writes l _ h]
  refine ⟨blocks_perMotor_ne_nil _ _ _ _, ?_⟩
  intro b hb
  rcases mem_blocks_perMotor _ _ _ _ _ hb with hb | hb <;> subst hb <;> rfl

/-- C4. For every speed byte `s` (in particular every `s` in [0,100]), every motor
selector, duration, stop action and wait flag: each block `Run_Unlimited` and
`Run_Seconds` write with `Dir_Forward` carries `s` itself as its speed byte
(position 1), and each block they write with `Dir_Reverse` carries
`(256 - s) mod 256`, the 8-bit two's-complement negation of the Forward byte. -/
theorem reverse_speed_is_negated_forward (sd : SmartDrive) (m : MotorID_t)
    (s duration : Nat) (wait : Bool) (action : MotorAction_t) (budget : Nat)
    (hs : s < 256) :
    (blocks (callsSince sd (sd.Run_Unlimited m .Dir_Forward s)) ≠ [] ∧
      ∀ b ∈ blocks (callsSince sd (sd.Run_Unlimited m .Dir_Forward s)), b.getD 1 0 = s) ∧
    (blocks (callsSince sd (sd.Run_Unlimited m .Dir_Reverse s)) ≠ [] ∧
      ∀ b ∈ blocks (callsSince sd (sd.Run_Unlimited m .Dir_Reverse s)),
        b.getD 1 0 = (256 - s) % 256) ∧
    (blocks (callsSince sd
        (sd.Run_Seconds m .Dir_Forward s duration wait action budget).sd) ≠ [] ∧
      ∀ b ∈ blocks (callsSince sd
        (sd.Run_Seconds m .Dir_Forward s duration wait action budget).sd), b.getD 1 0 = s) ∧
    (blocks (callsSince sd
        (sd.Run_Seconds m .Dir_Reverse s duration wait action budget).sd) ≠ [] ∧
      ∀ b ∈ blocks (callsSince sd
        (sd.Run_Seconds m .Dir_Reverse s duration wait action budget).sd),
        b.getD 1 0 = (256 - s) % 256) := by
  have hrev : signedSpeed .Dir_Reverse s = (256 - s) % 256 := by
    simp only [signedSpeed, u8]
    omega
  have hfwd : signedSpeed .Dir_Forward s = s := rfl
  refine ⟨?_, ?_, ?_, ?_⟩
  · have h := speed_blocks _ m _ _ _ _ (SmartDrive.Run_Unlimited_writes sd m .Dir_Forward s)
    rwa [hfwd] at h
  · have h := speed_blocks _ m _ _ _ _ (SmartDrive.Run_Unlimited_writes sd m .Dir_Reverse s)
    rwa [hrev] at h
  · have h := speed_blocks _ m _ _ _ _
      (SmartDrive.Run_Seconds_writes sd m .Dir_Forward s duration wait action budget)
    rwa [hfwd] at h
  · have h := speed_blocks _ m _ _ _ _
      (SmartDrive.Run_Seconds_writes sd m .Dir_Reverse s duration wait action budget)
    rwa [hrev] at h

/-- C4 at speed 100: the Reverse speed byte is 156 = 256 - 100. -/
theorem reverse_speed_is_negated_forward_witness :
    (100 : Nat) < 256 ∧
    (∀ b ∈ blocks (callsSince (onBoard fun _ => 0)
        ((onBoard fun _ => 0).Run_Unlimited .Motor_ID_BOTH .Dir_Reverse 100)),
      b.getD 1 0 = 156) ∧
    blocks (callsSince (onBoard fun _ => 0)
        ((onBoard fun _ => 0).Run_Seconds .Motor_ID_1 .Dir_Reverse 100 5 false
          .Action_Brake 0).sd) = [[0x46, 156, 5, 0, 0xD1]] :=
  ⟨by decide,
   (reverse_speed_is_negated_forward (onBoard fun _ => 0) .Motor_ID_BOTH 100 5 false
      .Action_Brake 0 (by decide)).2.1.2,
   by decide⟩

/-- On bytes, the shifts and ORs of `readLongSigned` add up little-endian. -/
theorem or_bytes (b0 b1 b2 b3 : Nat) (h0 : b0 < 256) (h1 : b1 < 256) (h2 : b2 < 256)
    (h3 : b3 < 256) :
    (b0 ||| (b1 <<< 8) ||| (b2 <<< 16) ||| (b3 <<< 24)) % 4294967296 =
      b0 + 256 * b1 + 65536 * b2 + 16777216 * b3 := by
  have e1 : b0 ||| (b1 <<< 8) = b0 + 256 * b1 := by
    rw [Nat.shiftLeft_eq, Nat.or_comm, Nat.mul_comm b1,
      ← Nat.mul_add_lt_is_or (show b0 < 2 ^ 8 by omega) b1]
    omega
  have e2 : (b0 + 256 * b1) ||| (b2 <<< 16) = b0 + 256 * b1 + 65536 * b2 := by
    rw [Nat.shiftLeft_eq, Nat.or_comm, Nat.mul_comm b2,
      ← Nat.mul_add_lt_is_or (show b0 + 256 * b1 < 2 ^ 16 by omega) b2]
    omega
  have e3 : (b0 + 256 * b1 + 65536 * b2) ||| (b3 <<< 24) =
      b0 + 256 * b1 + 65536 * b2 + 16777216 * b3 := by
    rw [Nat.shiftLeft_eq, Nat.or_comm, Nat.mul_comm b3,
      ← Nat.mul_add_lt_is_or (show b0 + 256 * b1 + 65536 * b2 < 2 ^ 24 by omega) b3]
    omega
  rw [e1, e2, e3]
  omega

/-- What `readLongSigned` returns, as a little-endian sum of the four bytes read. -/
theorem readLongSigned_value (sd : SmartDrive) (addr : Nat) :
    (sd.readLongSigned addr).1 =
      sd.board.reg (sd.log.length + 1) addr % 256 +
      256 * (sd.board.reg (sd.log.length + 1) (addr + 1) % 256) +
      65536 * (sd.board.reg (sd.log.length + 1) (addr + 2) % 256) +
      16777216 * (sd.board.reg (sd.log.length + 1) (addr + 3) % 256) := by
  simp only [SmartDrive.readLongSigned, SmartDrive.log_call, SmartDrive.board_call,
    List.length_append, List.length_singleton, Nat.add_zero]
  exact or_bytes _ _ _ _ (Nat.mod_lt _ (by decide)) (Nat.mod_lt _ (by decide))
    (Nat.mod_lt _ (by decide)) (Nat.mod_lt _ (by decide))

theorem setpoint_blocks (l : List Call) (m : MotorID_t) (r1 r2 v : Nat) (rest : List Nat)
    (hv : v < 4294967296)
    (h : writes l = perMotor m r1 r2
      (v % 256 :: v / 256 % 256 :: v / 65536 % 256 :: v / 16777216 % 256 :: rest)) :
    blocks l ≠ [] ∧ ∀ b ∈ blocks l, setpointOf b = v ∧
      b.getD 1 0 < 256 ∧ b.getD 2 0 < 256 ∧ b.getD 3 0 < 256 ∧ b.getD 4 0 < 256 := by
  rw [blocks_of_writes l _ h]
  refine ⟨blocks_perMotor_ne_nil _ _ _ _, ?_⟩
  intro b hb
  rcases mem_blocks_perMotor _ _ _ _ _ hb with hb | hb <;> subst hb <;>
    simp only [setpointOf, List.getD_cons_succ, List.getD_cons_zero] <;> omega

/-- C5. For every 32-bit displacement `v`, the bytes that `Run_Degrees`,
`Run_Rotations` and `Run_Tacho` place at positions 1 to 4 of each block they write
are bytes and decode little-endian to the encoded value: `v` for
`Run_Degrees` Forward and `Run_Tacho`, `-v mod 2^32` for `Run_Degrees` Reverse,
`rotations * 360 mod 2^32` for `Run_Rotations` Forward and its negation mod 2^32
for Reverse; and `readLongSigned`, on a board holding the four bytes of a block at
`addr .. addr+3`, returns that value. -/
theorem displacement_round_trip (sd : SmartDrive) (m : MotorID_t) (s v rotations : Nat)
    (wait : Bool) (action : MotorAction_t) (budget : Nat) (hv : v < 4294967296) :
    (blocks (callsSince sd
        (sd.Run_Degrees m .Dir_Forward s v wait action budget).sd) ≠ [] ∧
      ∀ b ∈ blocks (callsSince sd
        (sd.Run_Degrees m .Dir_Forward s v wait action budget).sd), setpointOf b = v) ∧
    (blocks (callsSince sd
        (sd.Run_Degrees m .Dir_Reverse s v wait action budget).sd) ≠ [] ∧
      ∀ b ∈ blocks (callsSince sd
        (sd.Run_Degrees m .Dir_Reverse s v wait action budget).sd),
        setpointOf b = (4294967296 - v) % 4294967296) ∧
    (blocks (callsSince sd (sd.Run_Tacho m s v wait action budget).sd) ≠ [] ∧
      ∀ b ∈ blocks (callsSince sd (sd.Run_Tacho m s v wait action budget).sd),
        setpointOf b = v) ∧
    (blocks (callsSince sd
        (sd.Run_Rotations m .Dir_Forward s rotations wait action budget).sd) ≠ [] ∧
      ∀ b ∈ blocks (callsSince sd
        (sd.Run_Rotations m .Dir_Forward s rotations wait action budget).sd),
        setpointOf b = rotations * 360 % 4294967296) ∧
    (blocks (callsSince sd
        (sd.Run_Rotations m .Dir_Reverse s rotations wait action budget).sd) ≠ [] ∧
      ∀ b ∈ blocks (callsSince sd
        (sd.Run_Rotations m .Dir_Reverse s rotations wait action budget).sd),
        setpointOf b = (4294967296 - rotations * 360 % 4294967296) % 4294967296) ∧
    (∀ b ∈ blocks (callsSince sd (sd.Run_Tacho m s v wait action budget).sd),
      ∀ (reader : SmartDrive) (addr : Nat),
        (∀ i, i < 4 → reader.board.reg (reader.log.length + 1) (addr + i) = b.getD (i + 1) 0) →
        (reader.readLongSigned addr).1 = v) := by
  have hrev : signedDisp .Dir_Reverse v = (4294967296 - v) % 4294967296 := by
    simp only [signedDisp, u32]
    omega
  have hrot : rotationsDisp .Dir_Forward rotations = rotations * 360 % 4294967296 := by
    simp only [rotationsDisp, u32]
    omega
  have hT := setpoint_blocks _ m _ _ v _ hv
    (SmartDrive.Run_Tacho_writes sd m s v wait action budget)
  have hrotr : rotationsDisp .Dir_Reverse rotations =
      (4294967296 - rotations * 360 % 4294967296) % 4294967296 := by
    simp only [rotationsDisp, u32]
    omega
  refine ⟨?_, ?_, ⟨hT.1, fun b hb => (hT.2 b hb).1⟩, ?_, ?_, ?_⟩
  · have h := setpoint_blocks _ m _ _ v _ hv
      (SmartDrive.Run_Degrees_writes sd m .Dir_Forward s v wait action budget)
    exact ⟨h.1, fun b hb => (h.2 b hb).1⟩
  · have h := SmartDrive.Run_Degrees_writes sd m .Dir_Reverse s v wait action budget
    rw [hrev] at h
    have h2 := setpoint_blocks _ m _ _ _ _ (Nat.mod_lt _ (by decide)) h
    exact ⟨h2.1, fun b hb => (h2.2 b hb).1⟩
  · have h := SmartDrive.Run_Rotations_writes sd m .Dir_Forward s rotations wait action budget
    rw [hrot] at h
    have h2 := setpoint_blocks _ m _ _ _ _ (Nat.mod_lt _ (by decide)) h
    exact ⟨h2.1, fun b hb => (h2.2 b hb).1⟩
  · have h := SmartDrive.Run_Rotations_writes sd m .Dir_Reverse s rotations wait action budget
    rw [hrotr] at h
    have h2 := setpoint_blocks _ m _ _ _ _ (Nat.mod_lt _ (by decide)) h
    exact ⟨h2.1, fun b hb => (h2.2 b hb).1⟩
  · intro b hb reader addr hreg
    obtain ⟨hval, hb1, hb2, hb3, hb4⟩ := hT.2 b hb
    have r0 := hreg 0 (by decide)
    have r1 := hreg 1 (by decide)
    have r2 := hreg 2 (by decide)
    have r3 := hreg 3 (by decide)
    simp only [Nat.add_zero, Nat.zero_add] at r0 r1 r2 r3
    rw [readLongSigned_value, r0, r1, r2, r3, Nat.mod_eq_of_lt hb1, Nat.mod_eq_of_lt hb2,
      Nat.mod_eq_of_lt hb3, Nat.mod_eq_of_lt hb4]
    exact hval

/-- C5 at `v = 2^32 - 720`, a value with the top bit set: bytes `30 FD FF FF`. -/
theorem displacement_round_trip_witness :
    (4294966576 : Nat) < 4294967296 ∧
    (∀ b ∈ blocks (callsSince (onBoard fun _ => 0)
        ((onBoard fun _ => 0).Run_Tacho .Motor_ID_1 50 4294966576 false .Action_Brake 1).sd),
      setpointOf b = 4294966576) ∧
    blocks (callsSince (onBoard fun _ => 0)
        ((onBoard fun _ => 0).Run_Tacho .Motor_ID_1 50 4294966576 false .Action_Brake 1).sd) =
      [[0x42, 0x30, 0xFD, 0xFF, 0xFF, 50, 0, 0, 0x99]] :=
  ⟨by decide,
   (displacement_round_trip (onBoard fun _ => 0) .Motor_ID_1 50 4294966576 2 false
      .Action_Brake 1 (by decide)).2.2.1.2,
   by decide⟩

/-- While the tacho bit of Motor 1 stays set, polling never returns. -/
theorem WaitUntilTachoDone_stuck (budget : Nat) : ∀ sd : SmartDrive,
    sd.board = Device.const (fun _ => 0x08) →
    (sd.WaitUntilTachoDone .Motor_ID_1 budget).returned = false := by
  induction budget with
  | zero => intro sd _; rfl
  | succ n ih =>
    intro sd hb
    unfold SmartDrive.WaitUntilTachoDone
    have hdone : (sd.IsTachoDone .Motor_ID_1).1 = false := by
      simp [SmartDrive.IsTachoDone, SmartDrive.readByte, hb, Device.const]
    have hboard : ((sd.IsTachoDone .Motor_ID_1).2.call (.usleep 30000)).board =
        Device.const (fun _ => 0x08) := by
      simp [SmartDrive.IsTachoDone, SmartDrive.readByte, hb]
    simp only [hdone, if_true]
    exact ih _ hboard

/-- C6 (code defect). `Run_Tacho` with `wait_for_completion = false` on a resting
board (every register 0) writes its block and then reads the Motor-1 status
register `0x5A`, while `Run_Degrees` Forward with the same arguments stops after
its block; and on a board whose tacho bit stays set, `Run_Tacho` without waiting
never returns, whatever the polling budget. -/
theorem Run_Tacho_polls_without_wait :
    callsSince (onBoard fun _ => 0)
      ((onBoard fun _ => 0).Run_Tacho .Motor_ID_1 50 720 false .Action_Brake 1).sd =
      [.address 0x1B, .write [0x42, 0xD0, 0x02, 0x00, 0x00, 0x32, 0x00, 0x00, 0x99],
       .address 0x1B, .readReg 0x5A] ∧
    callsSince (onBoard fun _ => 0)
      ((onBoard fun _ => 0).Run_Degrees .Motor_ID_1 .Dir_Forward 50 720 false
        .Action_Brake 1).sd =
      [.address 0x1B, .write [0x42, 0xD0, 0x02, 0x00, 0x00, 0x32, 0x00, 0x00, 0x9D]] ∧
    ((onBoard fun _ => 0).Run_Degrees .Motor_ID_1 .Dir_Forward 50 720 false
        .Action_Brake 1).returned = true ∧
    ∀ budget, ((onBoard fun _ => 0x08).Run_Tacho .Motor_ID_1 50 720 false
        .Action_Brake budget).returned = false := by
  refine ⟨by decide, by decide, by decide, ?_⟩
  intro budget
  exact WaitUntilTachoDone_stuck budget _ rfl

/-- C7 (code defect). On a board whose Motor-1 status register `0x5A` holds 0 and
whose Motor-2 status register `0x5B` holds `0x80`, `GetMotorStatus(Motor_ID_2)`
reads register `0x5A` and returns 0, not the Motor-2 status `0x80`. -/
theorem GetMotorStatus_motor2_reads_motor1_register :
    callsSince (onBoard fun r => if r = 0x5B then 0x80 else 0)
      ((onBoard fun r => if r = 0x5B then 0x80 else 0).GetMotorStatus .Motor_ID_2).2 =
      [.address 0x1B, .readReg 0x5A] ∧
    ((onBoard fun r => if r = 0x5B then 0x80 else 0).GetMotorStatus .Motor_ID_2).1 = 0 ∧
    ((onBoard fun r => if r = 0x5B then 0x80 else 0).GetMotorStatus .Motor_ID_1).1 = 0 := by
  decide

/-- C8 (counterexample). With the battery register reading the raw byte 100,
`GetBattVoltage` does not return 212.7. -/
theorem battery_raw_100_is_not_212_7 :
    (onBoard fun _ => 100).board.reg ((onBoard fun _ => 100).log.length + 1) 0x6E = 100 ∧
    ((onBoard fun _ => 100).GetBattVoltage).1 ≠ 2127 / 10 := by
  refine ⟨rfl, ?_⟩
  norm_num [SmartDrive.GetBattVoltage, SmartDrive.readByte, onBoard, SmartDrive.create,
    Device.const, SmartDrive_VOLTAGE_MULTIPLIER]

/-- C8 (amended). When the battery-voltage register `0x6E` reads the raw byte 100,
`GetBattVoltage` reads that register once and returns 21270 (= 100 × 212.7), the
multiplier taken as the exact rational 212.7. -/
theorem GetBattVoltage_raw_100 (sd : SmartDrive)
    (h : sd.board.reg (sd.log.length + 1) 0x6E = 100) :
    sd.GetBattVoltage.1 = 21270 ∧ (21270 : ℚ) = 100 * SmartDrive_VOLTAGE_MULTIPLIER ∧
    callsSince sd sd.GetBattVoltage.2 = [.address sd.m_controlAddr, .readReg 0x6E] := by
  refine ⟨?_, ?_, ?_⟩
  · norm_num [SmartDrive.GetBattVoltage, SmartDrive.readByte, h, SmartDrive_VOLTAGE_MULTIPLIER]
  · norm_num [SmartDrive_VOLTAGE_MULTIPLIER]
  · apply callsSince_append
    simp [SmartDrive.GetBattVoltage, SmartDrive.readByte]

/-- C8 (amended) on a board whose registers all read 100. -/
theorem GetBattVoltage_raw_100_witness :
    (onBoard fun _ => 100).board.reg ((onBoard fun _ => 100).log.length + 1) 0x6E = 100 ∧
    ((onBoard fun _ => 100).GetBattVoltage).1 = 21270 :=
  ⟨rfl, (GetBattVoltage_raw_100 (onBoard fun _ => 100) rfl).1⟩

/-- C9. For every motor selector and board, `IsTimeDone` makes exactly the reads
of the status registers of the selected motors (`0x5A` for Motor 1, `0x5B` for
Motor 2, both in that order for both motors) and no other transfer, and returns
true exactly when bit `0x40` is clear in every byte read; `IsTachoDone` does the
same with bit `0x08`.  Hence a second driver state with a log of the same length
whose board agrees on the status registers of the selected motors gives the same
results, whatever the status register of a motor not selected holds. -/
theorem done_predicates_read_selected_status (sd : SmartDrive) (m : MotorID_t) :
    transfers (callsSince sd (sd.IsTimeDone m).2) = (statusRegs m).map Call.readReg ∧
    transfers (callsSince sd (sd.IsTachoDone m).2) = (statusRegs m).map Call.readReg ∧
    ((sd.IsTimeDone m).1 = true ↔
      match m with
      | .Motor_ID_1 => sd.board.reg (sd.log.length + 1) 0x5A % 256 &&& 0x40 = 0
      | .Motor_ID_2 => sd.board.reg (sd.log.length + 1) 0x5B % 256 &&& 0x40 = 0
      | .Motor_ID_BOTH => sd.board.reg (sd.log.length + 1) 0x5A % 256 &&& 0x40 = 0 ∧
          sd.board.reg (sd.log.length + 3) 0x5B % 256 &&& 0x40 = 0) ∧
    ((sd.IsTachoDone m).1 = true ↔
      match m with
      | .Motor_ID_1 => sd.board.reg (sd.log.length + 1) 0x5A % 256 &&& 0x08 = 0
      | .Motor_ID_2 => sd.board.reg (sd.log.length + 1) 0x5B % 256 &&& 0x08 = 0
      | .Motor_ID_BOTH => sd.board.reg (sd.log.length + 1) 0x5A % 256 &&& 0x08 = 0 ∧
          sd.board.reg (sd.log.length + 3) 0x5B % 256 &&& 0x08 = 0) ∧
    ∀ other : SmartDrive, other.log.length = sd.log.length →
      (∀ n, ∀ r ∈ statusRegs m, other.board.reg n r = sd.board.reg n r) →
      (other.IsTimeDone m).1 = (sd.IsTimeDone m).1 ∧
      (other.IsTachoDone m).1 = (sd.IsTachoDone m).1 := by
  refine ⟨?_, ?_, ?_, ?_, ?_⟩
  · cases m <;>
      simp [callsSince, SmartDrive.IsTimeDone, SmartDrive.readByte, transfers,
        Call.isTransfer, statusRegs]
  · cases m <;>
      simp [callsSince, SmartDrive.IsTachoDone, SmartDrive.readByte, transfers,
        Call.isTransfer, statusRegs]
  · cases m <;> simp [SmartDrive.IsTimeDone, SmartDrive.readByte]
  · cases m <;> simp [SmartDrive.IsTachoDone, SmartDrive.readByte]
  · intro other hlen hreg
    cases m <;>
      simp [statusRegs] at hreg <;>
      simp [SmartDrive.IsTimeDone, SmartDrive.IsTachoDone, SmartDrive.readByte, hlen, hreg]

/-- C9 on two boards that differ in the Motor-2 status register only: `IsTimeDone`
for Motor 1 agrees on them, while for Motor 2 it does not. -/
theorem done_predicates_read_selected_status_witness :
    (onBoard fun r => if r = 0x5B then 0xFF else 0).log.length = (onBoard fun _ => 0).log.length ∧
    (∀ n, ∀ r ∈ statusRegs .Motor_ID_1,
      (onBoard fun r => if r = 0x5B then 0xFF else 0).board.reg n r =
        (onBoard fun _ => 0).board.reg n r) ∧
    ((onBoard fun r => if r = 0x5B then 0xFF else 0).IsTimeDone .Motor_ID_1).1 =
      ((onBoard fun _ => 0).IsTimeDone .Motor_ID_1).1 ∧
    ((onBoard fun r => if r = 0x5B then 0xFF else 0).IsTimeDone .Motor_ID_2).1 = false ∧
    ((onBoard fun _ => 0).IsTimeDone .Motor_ID_2).1 = true :=
  ⟨rfl, by simp [statusRegs, onBoard, SmartDrive.create, Device.const],
   ((done_predicates_read_selected_status (onBoard fun _ => 0) .Motor_ID_1).2.2.2.2
      (onBoard fun r => if r = 0x5B then 0xFF else 0) rfl
      (by simp [statusRegs, onBoard, SmartDrive.create, Device.const])).1,
   by decide, by decide⟩

/-- C10. For every motor selector and stop action, `StopMotor` makes exactly one
data transfer, a single-byte write to the command register `0x41` (after the
address select): the value is `0x61 + m - 1` for `Action_Float` and `0x41 + m - 1`
for `Action_Brake` and `Action_BrakeHold`, so the coast code of a motor differs
from its brake code; for Motor 2 they are `0x62` and `0x42`. -/
theorem StopMotor_command_code (sd : SmartDrive) (m : MotorID_t) (a : MotorAction_t) :
    callsSince sd (sd.StopMotor m a) =
      [.address sd.m_controlAddr,
       .writeReg 0x41 (match a with
         | .Action_Float => 0x61 + m.toNat - 1
         | .Action_Brake => 0x41 + m.toNat - 1
         | .Action_BrakeHold => 0x41 + m.toNat - 1)] ∧
    (transfers (callsSince sd (sd.StopMotor m a))).length = 1 ∧
    callsSince sd (sd.StopMotor m .Action_Float) ≠ callsSince sd (sd.StopMotor m .Action_Brake) ∧
    callsSince sd (sd.StopMotor .Motor_ID_2 .Action_Float) =
      [.address sd.m_controlAddr, .writeReg 0x41 0x62] ∧
    callsSince sd (sd.StopMotor .Motor_ID_2 .Action_Brake) =
      [.address sd.m_controlAddr, .writeReg 0x41 0x42] := by
  have hlog : ∀ (m : MotorID_t) (a : MotorAction_t), callsSince sd (sd.StopMotor m a) =
      [.address sd.m_controlAddr,
       .writeReg 0x41 (match a with
         | .Action_Float => 0x61 + m.toNat - 1
         | .Action_Brake => 0x41 + m.toNat - 1
         | .Action_BrakeHold => 0x41 + m.toNat - 1)] := by
    intro m a
    apply callsSince_append
    cases m <;> cases a <;>
      simp [SmartDrive.StopMotor, SmartDrive.writeByte, MotorID_t.toNat, u8]
  refine ⟨hlog m a, ?_, ?_, ?_, ?_⟩
  · rw [hlog]
    simp [transfers, Call.isTransfer]
  · rw [hlog, hlog]
    cases m <;> simp [MotorID_t.toNat]
  · rw [hlog]
    rfl
  · rw [hlog]
    rfl

/-! ## Address selection -/

theorem selectedFrom_weaken (a : Nat) (p : Option Call) (l : List Call)
    (h : selectedFrom a none l = true) : selectedFrom a p l = true := by
  cases l with
  | nil => rfl
  | cons c l =>
    simp only [selectedFrom, Bool.and_eq_true, Bool.or_eq_true] at h ⊢
    exact ⟨h.1.imp id (fun h2 => by simp at h2), h.2⟩

theorem selectedFrom_append (a : Nat) (l1 l2 : List Call) (h2 : selectedFrom a none l2 = true) :
    ∀ p, selectedFrom a p l1 = true → selectedFrom a p (l1 ++ l2) = true := by
  induction l1 with
  | nil => intro p _; exact selectedFrom_weaken a p l2 h2
  | cons c l ih =>
    intro p h1
    simp only [selectedFrom, Bool.and_eq_true, List.cons_append] at h1 ⊢
    exact ⟨h1.1, ih _ h1.2⟩

theorem eachSelected_append (a : Nat) (l1 l2 : List Call) (h1 : eachSelected a l1 = true)
    (h2 : eachSelected a l2 = true) : eachSelected a (l1 ++ l2) = true :=
  selectedFrom_append a l1 l2 h2 none h1

theorem selectedFrom_withSelect (a : Nat) (l : List Call) :
    ∀ p, selectedFrom a p (withSelect a l) = true := by
  induction l with
  | nil => intro p; rfl
  | cons c l ih =>
    intro p
    simp [withSelect, selectedFrom, Call.isTransfer, ih]

theorem eachSelected_withSelect (a : Nat) (l : List Call) :
    eachSelected a (withSelect a l) = true :=
  selectedFrom_withSelect a l none

/-- An operation whose log grows by selected calls, from a state whose own growth
was selected, has selected growth overall. -/
theorem eachSelected_callsSince (sd sd1 : SmartDrive) (ext : List Call)
    (h : sd1.log = sd.log ++ ext) (hs : eachSelected sd.m_controlAddr ext = true) :
    eachSelected sd.m_controlAddr (callsSince sd sd1) = true := by
  rw [callsSince_append sd sd1 ext h]
  exact hs

/-! ## The polling loops -/

theorem WaitUntilTimeDone_eq_pollLoop (m : MotorID_t) (budget : Nat) : ∀ sd : SmartDrive,
    sd.WaitUntilTimeDone m budget = pollLoop (fun s => s.IsTimeDone m) (.sleep 1) sd budget := by
  induction budget with
  | zero => intro sd; rfl
  | succ n ih =>
    intro sd
    unfold SmartDrive.WaitUntilTimeDone pollLoop
    by_cases h : (sd.IsTimeDone m).1 = false
    · simp only [h, if_true]
      exact ih _
    · simp [h]

theorem WaitUntilTachoDone_eq_pollLoop (m : MotorID_t) (budget : Nat) : ∀ sd : SmartDrive,
    sd.WaitUntilTachoDone m budget =
      pollLoop (fun s => s.IsTachoDone m) (.usleep 30000) sd budget := by
  induction budget with
  | zero => intro sd; rfl
  | succ n ih =>
    intro sd
    unfold SmartDrive.WaitUntilTachoDone pollLoop
    by_cases h : (sd.IsTachoDone m).1 = false
    · simp only [h, if_true]
      exact ih _
    · simp [h]

theorem IsTimeDone_calls (sd : SmartDrive) (m : MotorID_t) :
    (sd.IsTimeDone m).2.log = sd.log ++ pollCalls sd.m_controlAddr m ∧
    (sd.IsTimeDone m).2.m_controlAddr = sd.m_controlAddr := by
  cases m <;>
    simp [SmartDrive.IsTimeDone, SmartDrive.readByte, pollCalls, statusRegs, withSelect]

theorem IsTachoDone_calls (sd : SmartDrive) (m : MotorID_t) :
    (sd.IsTachoDone m).2.log = sd.log ++ pollCalls sd.m_controlAddr m ∧
    (sd.IsTachoDone m).2.m_controlAddr = sd.m_controlAddr := by
  cases m <;>
    simp [SmartDrive.IsTachoDone, SmartDrive.readByte, pollCalls, statusRegs, withSelect]

/-- The calls of a polling loop, whatever its budget, are selected when those of
its predicate are and the delay is no transfer. -/
theorem pollLoop_selected (pred : SmartDrive → Bool × SmartDrive) (delay : Call)
    (pc : Nat → List Call)
    (hpred : ∀ s, (pred s).2.log = s.log ++ pc s.m_controlAddr ∧
      (pred s).2.m_controlAddr = s.m_controlAddr)
    (hpc : ∀ a, eachSelected a (pc a) = true) (hdelay : delay.isTransfer = false)
    (budget : Nat) : ∀ sd : SmartDrive,
    (pollLoop pred delay sd budget).sd.m_controlAddr = sd.m_controlAddr ∧
    ∃ ext, (pollLoop pred delay sd budget).sd.log = sd.log ++ ext ∧
      eachSelected sd.m_controlAddr ext = true := by
  induction budget with
  | zero => intro sd; exact ⟨rfl, [], by simp [pollLoop], rfl⟩
  | succ n ih =>
    intro sd
    unfold pollLoop
    by_cases h : (pred sd).1 = false
    · simp only [h, if_true]
      obtain ⟨ha, e, he, hs⟩ := ih ((pred sd).2.call delay)
      simp only [SmartDrive.m_controlAddr_call, SmartDrive.log_call, (hpred sd).1,
        (hpred sd).2] at ha he hs
      refine ⟨ha, pc sd.m_controlAddr ++ [delay] ++ e, by simp [he], ?_⟩
      refine eachSelected_append _ _ _ (eachSelected_append _ _ _ (hpc _) ?_) hs
      simp [eachSelected, selectedFrom, hdelay]
    · simp only [h, if_false]
      exact ⟨(hpred sd).2, pc sd.m_controlAddr, (hpred sd).1, hpc _⟩

theorem WaitUntilTimeDone_selected (sd : SmartDrive) (m : MotorID_t) (budget : Nat) :
    (sd.WaitUntilTimeDone m budget).sd.m_controlAddr = sd.m_controlAddr ∧
    ∃ ext, (sd.WaitUntilTimeDone m budget).sd.log = sd.log ++ ext ∧
      eachSelected sd.m_controlAddr ext = true := by
  rw [WaitUntilTimeDone_eq_pollLoop]
  exact pollLoop_selected _ (.sleep 1) (fun a => pollCalls a m) (fun s => IsTimeDone_calls s m)
    (fun a => eachSelected_withSelect a _) rfl budget sd

theorem WaitUntilTachoDone_selected (sd : SmartDrive) (m : MotorID_t) (budget : Nat) :
    (sd.WaitUntilTachoDone m budget).sd.m_controlAddr = sd.m_controlAddr ∧
    ∃ ext, (sd.WaitUntilTachoDone m budget).sd.log = sd.log ++ ext ∧
      eachSelected sd.m_controlAddr ext = true := by
  rw [WaitUntilTachoDone_eq_pollLoop]
  exact pollLoop_selected _ (.usleep 30000) (fun a => pollCalls a m)
    (fun s => IsTachoDone_calls s m)
    (fun a => eachSelected_withSelect a _) rfl budget sd

theorem wait_tacho_selected (w : Bool) (X : SmartDrive) (m : MotorID_t) (budget : Nat) :
    ∃ ext, (if w = true then (X.call (.sleep 1)).WaitUntilTachoDone m budget
        else (⟨X, true⟩ : Polled)).sd.log = X.log ++ ext ∧
      eachSelected X.m_controlAddr ext = true := by
  cases w
  · exact ⟨[], by simp, rfl⟩
  · obtain ⟨_, e, h, hs⟩ := WaitUntilTachoDone_selected (X.call (.sleep 1)) m budget
    exact ⟨.sleep 1 :: e, by simp [h], by
      simpa [eachSelected, selectedFrom, Call.isTransfer] using
        selectedFrom_weaken _ (some (.sleep 1)) e hs⟩

theorem wait_time_selected (w : Bool) (X : SmartDrive) (m : MotorID_t) (budget : Nat) :
    ∃ ext, (if w = true then (X.call (.sleep 1)).WaitUntilTimeDone m budget
        else (⟨X, true⟩ : Polled)).sd.log = X.log ++ ext ∧
      eachSelected X.m_controlAddr ext = true := by
  cases w
  · exact ⟨[], by simp, rfl⟩
  · obtain ⟨_, e, h, hs⟩ := WaitUntilTimeDone_selected (X.call (.sleep 1)) m budget
    exact ⟨.sleep 1 :: e, by simp [h], by
      simpa [eachSelected, selectedFrom, Call.isTransfer] using
        selectedFrom_weaken _ (some (.sleep 1)) e hs⟩

theorem always_wait_tacho_selected (w : Bool) (X : SmartDrive) (m : MotorID_t)
    (budget : Nat) :
    ∃ ext, ((if w = true then X.call (.sleep 1) else X).WaitUntilTachoDone m budget).sd.log =
      X.log ++ ext ∧ eachSelected X.m_controlAddr ext = true := by
  cases w
  · obtain ⟨_, e, h, hs⟩ := WaitUntilTachoDone_selected X m budget
    exact ⟨e, by simpa using h, hs⟩
  · obtain ⟨_, e, h, hs⟩ := WaitUntilTachoDone_selected (X.call (.sleep 1)) m budget
    exact ⟨.sleep 1 :: e, by simp [h], by
      simpa [eachSelected, selectedFrom, Call.isTransfer] using
        selectedFrom_weaken _ (some (.sleep 1)) e hs⟩

/-- A run command whose writes and read-backs `e0` are selected and whose wait
adds selected calls `ext` has selected calls. -/
theorem run_selected (sd R0 R : SmartDrive) (e0 ext : List Call)
    (h0 : R0.log = sd.log ++ e0) (ha : R0.m_controlAddr = sd.m_controlAddr)
    (hs0 : eachSelected sd.m_controlAddr e0 = true)
    (h1 : R.log = R0.log ++ ext) (hs : eachSelected R0.m_controlAddr ext = true) :
    eachSelected sd.m_controlAddr (callsSince sd R) = true := by
  rw [ha] at hs
  exact eachSelected_callsSince sd R (e0 ++ ext) (by simp [h1, h0])
    (eachSelected_append _ _ _ hs0 hs)

theorem Run_Seconds_selected (sd : SmartDrive) (m : MotorID_t) (direction : Direction_t)
    (s t : Nat) (w : Bool) (a : MotorAction_t) (budget : Nat) :
    eachSelected sd.m_controlAddr
      (callsSince sd (sd.Run_Seconds m direction s t w a budget).sd) = true := by
  have haddr : (sd.Run_Seconds m direction s t false a 0).sd.m_controlAddr =
      sd.m_controlAddr := by
    cases m <;> simp [SmartDrive.Run_Seconds, SmartDrive.writeArray, SmartDrive.writeByte,
      SmartDrive.readByte, MotorID_t.toNat]
  obtain ⟨ext, h1, hs⟩ :=
    wait_time_selected w (sd.Run_Seconds m direction s t false a 0).sd m budget
  have h0 := SmartDrive.Run_Seconds_nowait_log sd m direction s t a
  rw [List.append_assoc] at h0
  exact run_selected sd _ _ _ ext h0 haddr
    (eachSelected_append _ _ _ (eachSelected_withSelect _ _) (eachSelected_withSelect _ _))
    h1 hs

theorem Run_Degrees_selected (sd : SmartDrive) (m : MotorID_t) (direction : Direction_t)
    (s d : Nat) (w : Bool) (a : MotorAction_t) (budget : Nat) :
    eachSelected sd.m_controlAddr
      (callsSince sd (sd.Run_Degrees m direction s d w a budget).sd) = true := by
  have haddr : (sd.Run_Degrees m direction s d false a 0).sd.m_controlAddr =
      sd.m_controlAddr := by
    cases m <;> simp [SmartDrive.Run_Degrees, SmartDrive.writeArray, SmartDrive.writeByte]
  obtain ⟨ext, h1, hs⟩ :=
    wait_tacho_selected w (sd.Run_Degrees m direction s d false a 0).sd m budget
  exact run_selected sd _ _ _ ext (SmartDrive.Run_Degrees_nowait_log sd m direction s d a)
    haddr (eachSelected_withSelect _ _) h1 hs

theorem Run_Rotations_selected (sd : SmartDrive) (m : MotorID_t) (direction : Direction_t)
    (s r : Nat) (w : Bool) (a : MotorAction_t) (budget : Nat) :
    eachSelected sd.m_controlAddr
      (callsSince sd (sd.Run_Rotations m direction s r w a budget).sd) = true := by
  have haddr : (sd.Run_Rotations m direction s r false a 0).sd.m_controlAddr =
      sd.m_controlAddr := by
    cases m <;> simp [SmartDrive.Run_Rotations, SmartDrive.writeArray, SmartDrive.writeByte]
  obtain ⟨ext, h1, hs⟩ :=
    wait_tacho_selected w (sd.Run_Rotations m direction s r false a 0).sd m budget
  exact run_selected sd _ _ _ ext (SmartDrive.Run_Rotations_nowait_log sd m direction s r a)
    haddr (eachSelected_withSelect _ _) h1 hs

theorem Run_Tacho_selected (sd : SmartDrive) (m : MotorID_t) (s t : Nat) (w : Bool)
    (a : MotorAction_t) (budget : Nat) :
    eachSelected sd.m_controlAddr
      (callsSince sd (sd.Run_Tacho m s t w a budget).sd) = true := by
  have haddr : (sd.Run_Tacho m s t false a 0).sd.m_controlAddr = sd.m_controlAddr := by
    cases m <;> simp [SmartDrive.Run_Tacho, SmartDrive.writeArray, SmartDrive.writeByte,
      SmartDrive.WaitUntilTachoDone]
  obtain ⟨ext, h1, hs⟩ :=
    always_wait_tacho_selected w (sd.Run_Tacho m s t false a 0).sd m budget
  exact run_selected sd _ _ _ ext (SmartDrive.Run_Tacho_nowait_log sd m s t a)
    haddr (eachSelected_withSelect _ _) h1 hs

/-- C11. In the calls made by any public operation of the driver, for every
argument, board and polling budget, every data transfer (register byte write,
register byte read, buffer write, word read, multi-byte read) comes immediately
after a select of the driver's own bus address `m_controlAddr`, made by the same
operation; the constructor makes the select alone. -/
theorem every_transfer_selected (sd : SmartDrive) (m : MotorID_t) (direction : Direction_t)
    (action : MotorAction_t) (wait : Bool) (budget : Nat)
    (cmd speed duration degrees rotations tacho_count : Nat)
    (Kp_tacho Ki_tacho Kd_tacho Kp_speed Ki_speed Kd_speed passcount tolerance : Nat)
    (board : Device) (address : Nat) :
    eachSelected address (SmartDrive.create board address).log = true ∧
    eachSelected sd.m_controlAddr (callsSince sd (sd.command cmd)) = true ∧
    eachSelected sd.m_controlAddr (callsSince sd sd.GetBattVoltage.2) = true ∧
    eachSelected sd.m_controlAddr (callsSince sd (sd.ReadTachometerPosition m).2) = true ∧
    eachSelected sd.m_controlAddr (callsSince sd (sd.Run_Unlimited m direction speed)) = true ∧
    eachSelected sd.m_controlAddr (callsSince sd (sd.StopMotor m action)) = true ∧
    eachSelected sd.m_controlAddr (callsSince sd
      (sd.Run_Seconds m direction speed duration wait action budget).sd) = true ∧
    eachSelected sd.m_controlAddr (callsSince sd (sd.WaitUntilTimeDone m budget).sd) = true ∧
    eachSelected sd.m_controlAddr (callsSince sd (sd.IsTimeDone m).2) = true ∧
    eachSelected sd.m_controlAddr (callsSince sd
      (sd.Run_Degrees m direction speed degrees wait action budget).sd) = true ∧
    eachSelected sd.m_controlAddr (callsSince sd
      (sd.Run_Rotations m direction speed rotations wait action budget).sd) = true ∧
    eachSelected sd.m_controlAddr (callsSince sd
      (sd.Run_Tacho m speed tacho_count wait action budget).sd) = true ∧
    eachSelected sd.m_controlAddr (callsSince sd (sd.WaitUntilTachoDone m budget).sd) = true ∧
    eachSelected sd.m_controlAddr (callsSince sd (sd.IsTachoDone m).2) = true ∧
    eachSelected sd.m_controlAddr (callsSince sd
      (sd.SetPerformanceParameters Kp_tacho Ki_tacho Kd_tacho Kp_speed Ki_speed Kd_speed
        passcount tolerance)) = true ∧
    eachSelected sd.m_controlAddr (callsSince sd sd.ReadPerformanceParameters) = true ∧
    eachSelected sd.m_controlAddr (callsSince sd (sd.GetMotorStatus m).2) = true ∧
    eachSelected sd.m_controlAddr (callsSince sd (sd.PrintMotorStatus m)) = true := by
  refine ⟨?_, ?_, ?_, ?_, ?_, ?_, ?_, ?_, ?_, ?_, ?_, ?_, ?_, ?_, ?_, ?_, ?_, ?_⟩
  · simp [SmartDrive.create, eachSelected, selectedFrom, Call.isTransfer]
  · simp [callsSince, SmartDrive.command, SmartDrive.writeByte, eachSelected, selectedFrom,
      Call.isTransfer]
  · simp [callsSince, SmartDrive.GetBattVoltage, SmartDrive.readByte, eachSelected,
      selectedFrom, Call.isTransfer]
  · cases m <;>
      simp [callsSince, SmartDrive.ReadTachometerPosition, SmartDrive.readLongSigned,
        MotorID_t.toNat, eachSelected, selectedFrom, Call.isTransfer]
  · exact eachSelected_callsSince sd _ _ (SmartDrive.Run_Unlimited_log sd m direction speed)
      (eachSelected_withSelect _ _)
  · cases action <;>
      simp [callsSince, SmartDrive.StopMotor, SmartDrive.writeByte, eachSelected,
        selectedFrom, Call.isTransfer]
  · exact Run_Seconds_selected sd m direction speed duration wait action budget
  · obtain ⟨_, e, h, hs⟩ := WaitUntilTimeDone_selected sd m budget
    exact eachSelected_callsSince sd _ e h hs
  · exact eachSelected_callsSince sd _ _ (IsTimeDone_calls sd m).1
      (eachSelected_withSelect _ _)
  · exact Run_Degrees_selected sd m direction speed degrees wait action budget
  · exact Run_Rotations_selected sd m direction speed rotations wait action budget
  · exact Run_Tacho_selected sd m speed tacho_count wait action budget
  · obtain ⟨_, e, h, hs⟩ := WaitUntilTachoDone_selected sd m budget
    exact eachSelected_callsSince sd _ e h hs
  · exact eachSelected_callsSince sd _ _ (IsTachoDone_calls sd m).1
      (eachSelected_withSelect _ _)
  · simp [callsSince, SmartDrive.SetPerformanceParameters, SmartDrive.writeArray,
      eachSelected, selectedFrom, Call.isTransfer]
  · simp [callsSince, SmartDrive.ReadPerformanceParameters, SmartDrive.readInteger,
      eachSelected, selectedFrom, Call.isTransfer]
  · cases m <;>
      simp [callsSince, SmartDrive.GetMotorStatus, SmartDrive.readByte, eachSelected,
        selectedFrom, Call.isTransfer]
  · cases m <;>
      simp [callsSince, SmartDrive.PrintMotorStatus, SmartDrive.GetMotorStatus,
        SmartDrive.readByte, eachSelected, selectedFrom, Call.isTransfer]

/-! ## Exact transfers of the run commands -/

theorem transfers_withSelect (a : Nat) (l : List Call) (h : ∀ c ∈ l, c.isTransfer = true) :
    transfers (withSelect a l) = l := by
  induction l with
  | nil => rfl
  | cons c l ih =>
    have hc := h c (List.mem_cons_self _ _)
    have hl := ih (fun x hx => h x (List.mem_cons_of_mem _ hx))
    simp only [transfers] at hl
    simp [withSelect, transfers, List.filter_cons, hc, hl,
      show Call.isTransfer (Call.address a) = false from rfl]

theorem reads_withSelect (a : Nat) (l : List Call) (h : ∀ c ∈ l, c.isRead = false) :
    reads (withSelect a l) = [] := by
  induction l with
  | nil => rfl
  | cons c l ih =>
    have hc := h c (List.mem_cons_self _ _)
    have hl := ih (fun x hx => h x (List.mem_cons_of_mem _ hx))
    simp only [reads] at hl
    simp [withSelect, reads, List.filter_cons, hc, hl,
      show Call.isRead (Call.address a) = false from rfl]

theorem perMotor_isTransfer (m : MotorID_t) (r1 r2 : Nat) (body : List Nat) :
    ∀ c ∈ perMotor m r1 r2 body, c.isTransfer = true ∧ c.isRead = false := by
  cases m <;> simp [perMotor, Call.isTransfer, Call.isRead]

theorem signedSpeed_reverse (s : Nat) (hs : s < 256) :
    signedSpeed .Dir_Reverse s = (256 - s) % 256 := by
  simp only [signedSpeed, u8]
  omega

/-- C12. For every motor selector, direction and speed byte, the data transfers of
`Run_Unlimited` are, in order: for Motor 1 the block `{0x46, s', 0, 0, 0x91}`; for
Motor 2 the block `{0x4E, s', 0, 0, 0x91}`; for both motors the blocks
`{0x46, s', 0, 0, 0x11}` and `{0x4E, s', 0, 0, 0x11}` and then `0x53` to register
`0x41`.  Each transfer follows a select of the bus address, nothing is read, `s'` is
the speed for Forward and `(256 - speed) mod 256` for Reverse, and the control byte
is SPEED|BRAKE with GO added unless both motors are selected. -/
theorem Run_Unlimited_transfers (sd : SmartDrive) (m : MotorID_t) (direction : Direction_t)
    (speed : Nat) (hs : speed < 256) :
    transfers (callsSince sd (sd.Run_Unlimited m direction speed)) =
      (match m with
        | .Motor_ID_1 => [.write [0x46, signedSpeed direction speed, 0, 0, 0x91]]
        | .Motor_ID_2 => [.write [0x4E, signedSpeed direction speed, 0, 0, 0x91]]
        | .Motor_ID_BOTH =>
          [.write [0x46, signedSpeed direction speed, 0, 0, 0x11],
           .write [0x4E, signedSpeed direction speed, 0, 0, 0x11],
           .writeReg 0x41 0x53]) ∧
    callsSince sd (sd.Run_Unlimited m direction speed) =
      withSelect sd.m_controlAddr (transfers (callsSince sd (sd.Run_Unlimited m direction speed))) ∧
    reads (callsSince sd (sd.Run_Unlimited m direction speed)) = [] ∧
    signedSpeed .Dir_Forward speed = speed ∧
    signedSpeed .Dir_Reverse speed = (256 - speed) % 256 ∧
    0x11 = SmartDrive_CONTROL_SPEED ||| SmartDrive_CONTROL_BRK ∧
    0x91 = SmartDrive_CONTROL_SPEED ||| SmartDrive_CONTROL_BRK ||| SmartDrive_CONTROL_GO := by
  have hcalls := callsSince_append sd _ _ (SmartDrive.Run_Unlimited_log sd m direction speed)
  have htr := transfers_withSelect sd.m_controlAddr _
    (fun c hc => (perMotor_isTransfer m 0x46 0x4E
      [signedSpeed direction speed, 0, 0, 0x11 + goBit m] c hc).1)
  have hrd := reads_withSelect sd.m_controlAddr _
    (fun c hc => (perMotor_isTransfer m 0x46 0x4E
      [signedSpeed direction speed, 0, 0, 0x11 + goBit m] c hc).2)
  refine ⟨?_, ?_, ?_, rfl, signedSpeed_reverse speed hs, by decide, by decide⟩
  · rw [hcalls, htr]
    cases m <;> rfl
  · rw [hcalls, htr]
  · rw [hcalls, hrd]

/-- C12 at Motor 2, Reverse, speed 60: one block `{0x4E, 196, 0, 0, 0x91}`. -/
theorem Run_Unlimited_transfers_witness :
    (60 : Nat) < 256 ∧
    transfers (callsSince (onBoard fun _ => 0)
      ((onBoard fun _ => 0).Run_Unlimited .Motor_ID_2 .Dir_Reverse 60)) =
      [.write [0x4E, 196, 0, 0, 0x91]] :=
  ⟨by decide,
   (Run_Unlimited_transfers (onBoard fun _ => 0) .Motor_ID_2 .Dir_Reverse 60
      (by decide)).1.trans (by decide)⟩

/-- C13. For every motor selector, direction, speed, duration, stop action, wait
flag and polling budget, the writes of `Run_Seconds` are exactly one block
`{speedRegister, s', duration, 0, ctrl}` per selected motor (`0x46` for Motor 1,
`0x4E` for Motor 2, Motor 1 first), followed by `0x53` to register `0x41` only
when both motors are selected; `s'` is the signed speed and `ctrl` is SPEED|TIME
combined with the BRAKE/HOLD-ON bits of the stop action and with GO unless both
motors are selected. -/
theorem Run_Seconds_exact_writes (sd : SmartDrive) (m : MotorID_t) (direction : Direction_t)
    (speed duration : Nat) (wait : Bool) (action : MotorAction_t) (budget : Nat) :
    writes (callsSince sd (sd.Run_Seconds m direction speed duration wait action budget).sd) =
      (match m with
        | .Motor_ID_1 =>
          [.write [0x46, signedSpeed direction speed, duration, 0,
            SmartDrive_CONTROL_SPEED ||| SmartDrive_CONTROL_TIME ||| actionBits action |||
              SmartDrive_CONTROL_GO]]
        | .Motor_ID_2 =>
          [.write [0x4E, signedSpeed direction speed, duration, 0,
            SmartDrive_CONTROL_SPEED ||| SmartDrive_CONTROL_TIME ||| actionBits action |||
              SmartDrive_CONTROL_GO]]
        | .Motor_ID_BOTH =>
          [.write [0x46, signedSpeed direction speed, duration, 0,
            SmartDrive_CONTROL_SPEED ||| SmartDrive_CONTROL_TIME ||| actionBits action],
           .write [0x4E, signedSpeed direction speed, duration, 0,
            SmartDrive_CONTROL_SPEED ||| SmartDrive_CONTROL_TIME ||| actionBits action],
           .writeReg 0x41 0x53]) ∧
    SmartDrive_CONTROL_SPEED ||| SmartDrive_CONTROL_TIME = 0x41 ∧
    actionBits .Action_Float = 0 ∧
    actionBits .Action_Brake = SmartDrive_CONTROL_BRK ∧
    actionBits .Action_BrakeHold = SmartDrive_CONTROL_BRK ||| SmartDrive_CONTROL_ON ∧
    signedSpeed .Dir_Forward speed = speed ∧
    signedSpeed .Dir_Reverse speed = u8 (-(speed : Int)) := by
  refine ⟨?_, by decide, rfl, rfl, by decide, rfl, rfl⟩
  rw [SmartDrive.Run_Seconds_writes]
  cases m <;> cases action <;> rfl

theorem u32_neg_emod (x : Int) : u32 (-(x % 4294967296)) = u32 (-x) := by
  unfold u32
  congr 1
  omega

theorem u32_natCast (n : Nat) : u32 (n : Int) = n % 4294967296 := by
  unfold u32
  omega

/-- C14. For every motor selector, direction, speed, rotation count, wait flag,
stop action, board and polling budget, `Run_Rotations` behaves exactly as
`Run_Degrees` called with `(rotations * 360) mod 2^32` degrees: the same state is
reached, hence the same sequence of bus transfers is made, and one has returned
exactly when the other has. -/
theorem Run_Rotations_as_Run_Degrees (sd : SmartDrive) (m : MotorID_t)
    (direction : Direction_t) (speed rotations : Nat) (wait : Bool) (action : MotorAction_t)
    (budget : Nat) :
    sd.Run_Rotations m direction speed rotations wait action budget =
      sd.Run_Degrees m direction speed (rotations * 360 % 4294967296) wait action budget ∧
    transfers (callsSince sd
      (sd.Run_Rotations m direction speed rotations wait action budget).sd) =
    transfers (callsSince sd
      (sd.Run_Degrees m direction speed (rotations * 360 % 4294967296) wait action
        budget).sd) := by
  have hfwd : u32 ((rotations : Int) * 360) = rotations * 360 % 4294967296 := by
    have h := u32_natCast (rotations * 360)
    rwa [Nat.cast_mul, Nat.cast_ofNat] at h
  have hrev : u32 ((rotations : Int) * 360 * -1) =
      u32 (((rotations * 360 % 4294967296 : Nat) : Int) * -1) := by
    have hc : ((rotations * 360 % 4294967296 : Nat) : Int) =
        (rotations : Int) * 360 % 4294967296 := by omega
    rw [hc, mul_neg_one, mul_neg_one, u32_neg_emod]
  have heq : sd.Run_Rotations m direction speed rotations wait action budget =
      sd.Run_Degrees m direction speed (rotations * 360 % 4294967296) wait action budget := by
    unfold SmartDrive.Run_Rotations SmartDrive.Run_Degrees
    cases direction
    · simp only [hrev, ne_eq, not_false_eq_true, if_true, reduceCtorEq]
    · simp only [hfwd, ne_eq, not_true_eq_false, if_false]
  exact ⟨heq, by rw [heq]⟩

/-- C15. For every four bytes `b0..b3` the board holds at a motor's position
register (also `b3 ≥ 128`), `ReadTachometerPosition` makes one 4-byte read starting
at `0x52` for Motor 1 and at `0x56` for Motor 2, and returns the unsigned 32-bit
value `b0 + 256*b1 + 65536*b2 + 16777216*b3`. -/
theorem ReadTachometerPosition_little_endian (sd : SmartDrive) (m : MotorID_t)
    (b0 b1 b2 b3 : Nat) (h0 : b0 < 256) (h1 : b1 < 256) (h2 : b2 < 256) (h3 : b3 < 256)
    (hm : m = .Motor_ID_1 ∨ m = .Motor_ID_2)
    (hb0 : sd.board.reg (sd.log.length + 1)
      (if m = .Motor_ID_1 then 0x52 else 0x56) = b0)
    (hb1 : sd.board.reg (sd.log.length + 1)
      ((if m = .Motor_ID_1 then 0x52 else 0x56) + 1) = b1)
    (hb2 : sd.board.reg (sd.log.length + 1)
      ((if m = .Motor_ID_1 then 0x52 else 0x56) + 2) = b2)
    (hb3 : sd.board.reg (sd.log.length + 1)
      ((if m = .Motor_ID_1 then 0x52 else 0x56) + 3) = b3) :
    (sd.ReadTachometerPosition m).1 = b0 + 256 * b1 + 65536 * b2 + 16777216 * b3 ∧
    (sd.ReadTachometerPosition m).1 < 4294967296 ∧
    callsSince sd (sd.ReadTachometerPosition m).2 =
      [.address sd.m_controlAddr,
       .readBytesReg (if m = .Motor_ID_1 then 0x52 else 0x56) 4] := by
  have hval : (sd.ReadTachometerPosition m).1 =
      b0 + 256 * b1 + 65536 * b2 + 16777216 * b3 := by
    rcases hm with hm | hm <;> subst hm
    · simp only [if_true] at hb0 hb1 hb2 hb3
      simp only [SmartDrive.ReadTachometerPosition, MotorID_t.toNat, if_true]
      rw [readLongSigned_value, hb0, hb1, hb2, hb3, Nat.mod_eq_of_lt h0, Nat.mod_eq_of_lt h1,
        Nat.mod_eq_of_lt h2, Nat.mod_eq_of_lt h3]
    · simp only [reduceCtorEq, if_false] at hb0 hb1 hb2 hb3
      simp only [SmartDrive.ReadTachometerPosition, MotorID_t.toNat,
        show ¬ (2 = 1) by decide, if_false]
      rw [readLongSigned_value, hb0, hb1, hb2, hb3, Nat.mod_eq_of_lt h0, Nat.mod_eq_of_lt h1,
        Nat.mod_eq_of_lt h2, Nat.mod_eq_of_lt h3]
  refine ⟨hval, by rw [hval]; omega, ?_⟩
  apply callsSince_append
  rcases hm with hm | hm <;> subst hm <;>
    simp [SmartDrive.ReadTachometerPosition, SmartDrive.readLongSigned, MotorID_t.toNat]

/-- C15 on a board whose registers all hold `0xFF`: Motor 2 reads `2^32 - 1`. -/
theorem ReadTachometerPosition_little_endian_witness :
    ((onBoard fun _ => 0xFF).ReadTachometerPosition .Motor_ID_2).1 = 4294967295 ∧
    callsSince (onBoard fun _ => 0xFF)
      ((onBoard fun _ => 0xFF).ReadTachometerPosition .Motor_ID_2).2 =
      [.address 0x1B, .readBytesReg 0x56 4] :=
  ⟨(ReadTachometerPosition_little_endian (onBoard fun _ => 0xFF) .Motor_ID_2
      0xFF 0xFF 0xFF 0xFF (by decide) (by decide) (by decide) (by decide)
      (Or.inr rfl) rfl rfl rfl rfl).1,
   (ReadTachometerPosition_little_endian (onBoard fun _ => 0xFF) .Motor_ID_2
      0xFF 0xFF 0xFF 0xFF (by decide) (by decide) (by decide) (by decide)
      (Or.inr rfl) rfl rfl rfl rfl).2.2⟩

theorem SetPerformanceParameters_calls (sd : SmartDrive) (Kp_tacho Ki_tacho Kd_tacho
    Kp_speed Ki_speed Kd_speed passcount tolerance : Nat) :
    callsSince sd (sd.SetPerformanceParameters Kp_tacho Ki_tacho Kd_tacho Kp_speed Ki_speed
      Kd_speed passcount tolerance) =
      [.address sd.m_controlAddr,
       .write [0x5E, Kp_tacho % 256, Kp_tacho / 256 % 256, Ki_tacho % 256,
         Ki_tacho / 256 % 256, Kd_tacho % 256, Kd_tacho / 256 % 256, Kp_speed % 256,
         Kp_speed / 256 % 256, Ki_speed % 256, Ki_speed / 256 % 256, Kd_speed % 256,
         Kd_speed / 256 % 256, passcount, tolerance]] := by
  apply callsSince_append
  simp [SmartDrive.SetPerformanceParameters, SmartDrive.writeArray]

theorem splitsGain_bytes (g : Nat) (hg : g < 65536) : splitsGain g (g % 256) (g / 256 % 256) := by
  unfold splitsGain
  omega

/-- C16. For 16-bit gains passed to `SetPerformanceParameters`, the two bytes it
places in its block for each gain are `low = g mod 256` and `high = g div 256`;
both are below 256, so nothing is truncated, and `low + high * 256 = g`. -/
theorem gain_split_recombines (sd : SmartDrive) (Kp_tacho Ki_tacho Kd_tacho Kp_speed
    Ki_speed Kd_speed passcount tolerance : Nat)
    (h1 : Kp_tacho < 65536) (h2 : Ki_tacho < 65536) (h3 : Kd_tacho < 65536)
    (h4 : Kp_speed < 65536) (h5 : Ki_speed < 65536) (h6 : Kd_speed < 65536) :
    blocks (callsSince sd (sd.SetPerformanceParameters Kp_tacho Ki_tacho Kd_tacho Kp_speed
      Ki_speed Kd_speed passcount tolerance)) ≠ [] ∧
    ∀ b ∈ blocks (callsSince sd (sd.SetPerformanceParameters Kp_tacho Ki_tacho Kd_tacho
        Kp_speed Ki_speed Kd_speed passcount tolerance)),
      splitsGain Kp_tacho (b.getD 1 0) (b.getD 2 0) ∧
      splitsGain Ki_tacho (b.getD 3 0) (b.getD 4 0) ∧
      splitsGain Kd_tacho (b.getD 5 0) (b.getD 6 0) ∧
      splitsGain Kp_speed (b.getD 7 0) (b.getD 8 0) ∧
      splitsGain Ki_speed (b.getD 9 0) (b.getD 10 0) ∧
      splitsGain Kd_speed (b.getD 11 0) (b.getD 12 0) := by
  rw [SetPerformanceParameters_calls]
  refine ⟨by simp [blocks, Call.block?], ?_⟩
  intro b hb
  simp only [blocks, List.filterMap_cons, Call.block?, List.filterMap_nil,
    List.mem_singleton] at hb
  subst hb
  exact ⟨splitsGain_bytes _ h1, splitsGain_bytes _ h2, splitsGain_bytes _ h3,
    splitsGain_bytes _ h4, splitsGain_bytes _ h5, splitsGain_bytes _ h6⟩

/-- C16 at the gains 0xFFFF, 0x1234, 0x0100, 0x00FF, 0 and 0x8000. -/
theorem gain_split_recombines_witness :
    blocks (callsSince (onBoard fun _ => 0)
      ((onBoard fun _ => 0).SetPerformanceParameters 0xFFFF 0x1234 0x0100 0x00FF 0 0x8000
        3 7)) =
      [[0x5E, 0xFF, 0xFF, 0x34, 0x12, 0x00, 0x01, 0xFF, 0x00, 0x00, 0x00, 0x00, 0x80, 3, 7]] ∧
    ∀ b ∈ blocks (callsSince (onBoard fun _ => 0)
        ((onBoard fun _ => 0).SetPerformanceParameters 0xFFFF 0x1234 0x0100 0x00FF 0 0x8000
          3 7)),
      splitsGain 0x1234 (b.getD 3 0) (b.getD 4 0) :=
  ⟨by decide,
   fun b hb => ((gain_split_recombines (onBoard fun _ => 0) 0xFFFF 0x1234 0x0100 0x00FF 0
      0x8000 3 7 (by decide) (by decide) (by decide) (by decide) (by decide)
      (by decide)).2 b hb).2.1⟩

/-- C17. For all arguments, `SetPerformanceParameters` makes exactly one data
transfer, a 15-byte buffer write (after the address select): first the register
`0x5E` of the position proportional gain, then the low and high byte of `Kp_tacho`,
`Ki_tacho`, `Kd_tacho`, `Kp_speed`, `Ki_speed`, `Kd_speed` in that order, then
`passcount`, then `tolerance`.  Under register auto-increment the low byte of each
gain lands on the register the memory map names for it (`0x5E`, `0x60`, `0x62`,
`0x64`, `0x66`, `0x68`), `passcount` on `0x6A` and `tolerance` on `0x6B`. -/
theorem SetPerformanceParameters_one_block (sd : SmartDrive) (Kp_tacho Ki_tacho Kd_tacho
    Kp_speed Ki_speed Kd_speed passcount tolerance : Nat) :
    callsSince sd (sd.SetPerformanceParameters Kp_tacho Ki_tacho Kd_tacho Kp_speed Ki_speed
      Kd_speed passcount tolerance) =
      [.address sd.m_controlAddr,
       .write [0x5E, Kp_tacho % 256, Kp_tacho / 256 % 256, Ki_tacho % 256,
         Ki_tacho / 256 % 256, Kd_tacho % 256, Kd_tacho / 256 % 256, Kp_speed % 256,
         Kp_speed / 256 % 256, Ki_speed % 256, Ki_speed / 256 % 256, Kd_speed % 256,
         Kd_speed / 256 % 256, passcount, tolerance]] ∧
    (transfers (callsSince sd (sd.SetPerformanceParameters Kp_tacho Ki_tacho Kd_tacho
      Kp_speed Ki_speed Kd_speed passcount tolerance))).length = 1 ∧
    (blocks (callsSince sd (sd.SetPerformanceParameters Kp_tacho Ki_tacho Kd_tacho
      Kp_speed Ki_speed Kd_speed passcount tolerance))).map List.length = [15] ∧
    (blocks (callsSince sd (sd.SetPerformanceParameters Kp_tacho Ki_tacho Kd_tacho
      Kp_speed Ki_speed Kd_speed passcount tolerance))).map landing =
      [[(SmartDrive_P_Kp, Kp_tacho % 256), (SmartDrive_P_Kp + 1, Kp_tacho / 256 % 256),
        (SmartDrive_P_Ki, Ki_tacho % 256), (SmartDrive_P_Ki + 1, Ki_tacho / 256 % 256),
        (SmartDrive_P_Kd, Kd_tacho % 256), (SmartDrive_P_Kd + 1, Kd_tacho / 256 % 256),
        (SmartDrive_S_Kp, Kp_speed % 256), (SmartDrive_S_Kp + 1, Kp_speed / 256 % 256),
        (SmartDrive_S_Ki, Ki_speed % 256), (SmartDrive_S_Ki + 1, Ki_speed / 256 % 256),
        (SmartDrive_S_Kd, Kd_speed % 256), (SmartDrive_S_Kd + 1, Kd_speed / 256 % 256),
        (SmartDrive_PASSCOUNT, passcount), (SmartDrive_PASSTOLERANCE, tolerance)]] ∧
    [SmartDrive_P_Kp, SmartDrive_P_Ki, SmartDrive_P_Kd, SmartDrive_S_Kp, SmartDrive_S_Ki,
      SmartDrive_S_Kd, SmartDrive_PASSCOUNT, SmartDrive_PASSTOLERANCE] =
      [0x5E, 0x60, 0x62, 0x64, 0x66, 0x68, 0x6A, 0x6B] := by
  rw [SetPerformanceParameters_calls]
  refine ⟨rfl, ?_, ?_, ?_, rfl⟩
  · simp [transfers, Call.isTransfer]
  · simp [blocks, Call.block?]
  · simp [blocks, Call.block?, landing, landFrom]

/-! ## Termination of the polling loops -/

/-- A loop whose predicate fails at polls `0 .. k-1` and holds at poll `k` returns,
for every budget above `k`, right after the evaluation at poll `k`. -/
theorem pollLoop_returns (pred : SmartDrive → Bool × SmartDrive) (delay : Call) (k : Nat) :
    ∀ sd : SmartDrive,
    (∀ j, j < k → (pred (beforePoll pred delay sd j)).1 = false) →
    (pred (beforePoll pred delay sd k)).1 = true →
    ∀ budget, k < budget →
      pollLoop pred delay sd budget = ⟨(pred (beforePoll pred delay sd k)).2, true⟩ := by
  induction k with
  | zero =>
    intro sd _ ht budget hb
    obtain ⟨b, rfl⟩ := Nat.exists_eq_succ_of_ne_zero (Nat.pos_iff_ne_zero.mp hb)
    simp only [beforePoll] at ht
    simp [pollLoop, ht, beforePoll]
  | succ k ih =>
    intro sd hf ht budget hb
    obtain ⟨b, rfl⟩ := Nat.exists_eq_succ_of_ne_zero
      (Nat.pos_iff_ne_zero.mp (Nat.lt_of_le_of_lt (Nat.zero_le _) hb))
    have h0 : (pred sd).1 = false := hf 0 (Nat.succ_pos k)
    simp only [pollLoop, h0, if_true, beforePoll]
    exact ih _ (fun j hj => hf (j + 1) (Nat.succ_lt_succ hj)) ht b (Nat.lt_of_succ_lt_succ hb)

/-- A loop whose predicate fails at every poll its budget allows is still running,
about to start the next poll. -/
theorem pollLoop_running (pred : SmartDrive → Bool × SmartDrive) (delay : Call)
    (budget : Nat) : ∀ sd : SmartDrive,
    (∀ j, j < budget → (pred (beforePoll pred delay sd j)).1 = false) →
    pollLoop pred delay sd budget = ⟨beforePoll pred delay sd budget, false⟩ := by
  induction budget with
  | zero => intro sd _; rfl
  | succ b ih =>
    intro sd hf
    have h0 : (pred sd).1 = false := hf 0 (Nat.succ_pos b)
    simp only [pollLoop, h0, if_true, beforePoll]
    exact ih _ (fun j hj => hf (j + 1) (Nat.succ_lt_succ hj))

/-- The only exit: a loop that has returned did so at a poll where the predicate
held, after failing at every poll before. -/
theorem pollLoop_exit (pred : SmartDrive → Bool × SmartDrive) (delay : Call)
    (budget : Nat) : ∀ sd : SmartDrive,
    (pollLoop pred delay sd budget).returned = true →
    ∃ k, k < budget ∧ (pred (beforePoll pred delay sd k)).1 = true ∧
      (∀ j, j < k → (pred (beforePoll pred delay sd j)).1 = false) ∧
      (pollLoop pred delay sd budget).sd = (pred (beforePoll pred delay sd k)).2 := by
  induction budget with
  | zero => intro sd h; simp [pollLoop] at h
  | succ b ih =>
    intro sd h
    by_cases h0 : (pred sd).1 = false
    · simp only [pollLoop, h0, if_true] at h ⊢
      obtain ⟨k, hk, ht, hf, hs⟩ := ih _ h
      refine ⟨k + 1, Nat.succ_lt_succ hk, ht, ?_, hs⟩
      intro j hj
      cases j with
      | zero => exact h0
      | succ j => exact hf j (Nat.lt_of_succ_lt_succ hj)
    · have h1 : (pred sd).1 = true := by simpa using h0
      exact ⟨0, Nat.succ_pos b, h1, fun j hj => absurd hj (Nat.not_lt_zero j), by
        simp [pollLoop, h1, beforePoll]⟩

/-- The log at the start of poll `k + 1` and after the evaluation at poll `k`. -/
theorem beforePoll_log (pred : SmartDrive → Bool × SmartDrive) (delay : Call)
    (pc : Nat → List Call)
    (hpred : ∀ s, (pred s).2.log = s.log ++ pc s.m_controlAddr ∧
      (pred s).2.m_controlAddr = s.m_controlAddr)
    (k : Nat) : ∀ sd : SmartDrive,
    (pred (beforePoll pred delay sd k)).2.log =
      sd.log ++ pollTrace (pc sd.m_controlAddr) delay k := by
  induction k with
  | zero => intro sd; exact (hpred sd).1
  | succ k ih =>
    intro sd
    simp only [beforePoll, pollTrace]
    rw [ih]
    simp [(hpred sd).1, (hpred sd).2]

theorem count_pollTrace (pc : List Call) (delay : Call) (h : pc.count delay = 0) (k : Nat) :
    (pollTrace pc delay k).count delay = k := by
  induction k with
  | zero => exact h
  | succ k ih => simp [pollTrace, List.count_append, h, ih]

theorem reads_pollTrace (a : Nat) (m : MotorID_t) (delay : Call) (hd : delay.isRead = false)
    (k : Nat) :
    (reads (pollTrace (pollCalls a m) delay k)).length = (k + 1) * (statusRegs m).length := by
  have hpc : (reads (pollCalls a m)).length = (statusRegs m).length := by
    cases m <;> simp [pollCalls, statusRegs, withSelect, reads, Call.isRead]
  induction k with
  | zero => simpa [pollTrace] using hpc
  | succ k ih =>
    simp only [reads] at ih hpc
    have hstep : (List.filter Call.isRead (pollTrace (pollCalls a m) delay (k + 1))).length =
        (List.filter Call.isRead (pollCalls a m)).length +
          (List.filter Call.isRead (pollTrace (pollCalls a m) delay k)).length := by
      simp [pollTrace, List.filter_append, List.filter_cons, hd]
    simp only [reads]
    rw [hstep, ih, hpc]
    ring

theorem count_delay_pollCalls (a : Nat) (m : MotorID_t) (delay : Call)
    (hd : delay = .sleep 1 ∨ delay = .usleep 30000) : (pollCalls a m).count delay = 0 := by
  rcases hd with hd | hd <;> subst hd <;> cases m <;>
    simp [pollCalls, statusRegs, withSelect, List.count_cons]

/-- What a wait loop does when its predicate first holds at poll `k`. -/
theorem wait_ends_at (pred : SmartDrive → Bool × SmartDrive) (delay : Call) (m : MotorID_t)
    (hpred : ∀ s, (pred s).2.log = s.log ++ pollCalls s.m_controlAddr m ∧
      (pred s).2.m_controlAddr = s.m_controlAddr)
    (hd : delay = .sleep 1 ∨ delay = .usleep 30000)
    (sd : SmartDrive) (k : Nat)
    (hf : ∀ j, j < k → (pred (beforePoll pred delay sd j)).1 = false)
    (ht : (pred (beforePoll pred delay sd k)).1 = true) (budget : Nat) :
    (k < budget →
      (pollLoop pred delay sd budget).returned = true ∧
      callsSince sd (pollLoop pred delay sd budget).sd =
        pollTrace (pollCalls sd.m_controlAddr m) delay k ∧
      (callsSince sd (pollLoop pred delay sd budget).sd).count delay = k ∧
      (reads (callsSince sd (pollLoop pred delay sd budget).sd)).length =
        (k + 1) * (statusRegs m).length) ∧
    (budget ≤ k → (pollLoop pred delay sd budget).returned = false) := by
  constructor
  · intro hb
    have hres := pollLoop_returns pred delay k sd hf ht budget hb
    have hcalls : callsSince sd (pollLoop pred delay sd budget).sd =
        pollTrace (pollCalls sd.m_controlAddr m) delay k := by
      apply callsSince_append
      rw [hres]
      exact beforePoll_log pred delay (fun a => pollCalls a m) hpred k sd
    refine ⟨by rw [hres], hcalls, ?_, ?_⟩
    · rw [hcalls]
      exact count_pollTrace _ _ (count_delay_pollCalls _ m delay hd) k
    · rw [hcalls]
      exact reads_pollTrace _ m delay (by rcases hd with hd | hd <;> subst hd <;> rfl) k
  · intro hb
    rw [pollLoop_running pred delay budget sd (fun j hj => hf j (Nat.lt_of_lt_of_le hj hb))]

/-- C18. For every motor selector and board: if the completion predicate fails at
polls `0 .. k-1` and first holds at poll `k`, then `WaitUntilTimeDone` (predicate
`IsTimeDone`, delay `sleep(1)`) and `WaitUntilTachoDone` (predicate `IsTachoDone`,
delay `usleep(30000)`) return for every budget above `k`, having made exactly
`k + 1` evaluations of the predicate with exactly `k` delays between them, and have
not returned for any budget up to `k`.  Conversely a wait that has returned did so
right after an evaluation that yielded true, all earlier ones having yielded false:
the loop has no other exit. -/
theorem wait_loops_end_at_first_done_poll (sd : SmartDrive) (m : MotorID_t) (k : Nat) :
    ((∀ j, j < k →
        ((beforePoll (fun s => s.IsTimeDone m) (.sleep 1) sd j).IsTimeDone m).1 = false) →
      ((beforePoll (fun s => s.IsTimeDone m) (.sleep 1) sd k).IsTimeDone m).1 = true →
      ∀ budget,
        (k < budget →
          (sd.WaitUntilTimeDone m budget).returned = true ∧
          callsSince sd (sd.WaitUntilTimeDone m budget).sd =
            pollTrace (pollCalls sd.m_controlAddr m) (.sleep 1) k ∧
          (callsSince sd (sd.WaitUntilTimeDone m budget).sd).count (.sleep 1) = k ∧
          (reads (callsSince sd (sd.WaitUntilTimeDone m budget).sd)).length =
            (k + 1) * (statusRegs m).length) ∧
        (budget ≤ k → (sd.WaitUntilTimeDone m budget).returned = false)) ∧
    ((∀ j, j < k →
        ((beforePoll (fun s => s.IsTachoDone m) (.usleep 30000) sd j).IsTachoDone m).1 =
          false) →
      ((beforePoll (fun s => s.IsTachoDone m) (.usleep 30000) sd k).IsTachoDone m).1 = true →
      ∀ budget,
        (k < budget →
          (sd.WaitUntilTachoDone m budget).returned = true ∧
          callsSince sd (sd.WaitUntilTachoDone m budget).sd =
            pollTrace (pollCalls sd.m_controlAddr m) (.usleep 30000) k ∧
          (callsSince sd (sd.WaitUntilTachoDone m budget).sd).count (.usleep 30000) = k ∧
          (reads (callsSince sd (sd.WaitUntilTachoDone m budget).sd)).length =
            (k + 1) * (statusRegs m).length) ∧
        (budget ≤ k → (sd.WaitUntilTachoDone m budget).returned = false)) ∧
    (∀ budget, (sd.WaitUntilTimeDone m budget).returned = true →
      ∃ n, n < budget ∧
        ((beforePoll (fun s => s.IsTimeDone m) (.sleep 1) sd n).IsTimeDone m).1 = true ∧
        (∀ j, j < n →
          ((beforePoll (fun s => s.IsTimeDone m) (.sleep 1) sd j).IsTimeDone m).1 = false) ∧
        (sd.WaitUntilTimeDone m budget).sd =
          ((beforePoll (fun s => s.IsTimeDone m) (.sleep 1) sd n).IsTimeDone m).2) ∧
    (∀ budget, (sd.WaitUntilTachoDone m budget).returned = true →
      ∃ n, n < budget ∧
        ((beforePoll (fun s => s.IsTachoDone m) (.usleep 30000) sd n).IsTachoDone m).1 =
          true ∧
        (∀ j, j < n →
          ((beforePoll (fun s => s.IsTachoDone m) (.usleep 30000) sd j).IsTachoDone m).1 =
            false) ∧
        (sd.WaitUntilTachoDone m budget).sd =
          ((beforePoll (fun s => s.IsTachoDone m) (.usleep 30000) sd n).IsTachoDone m).2) := by
  refine ⟨?_, ?_, ?_, ?_⟩
  · intro hf ht budget
    rw [WaitUntilTimeDone_eq_pollLoop]
    exact wait_ends_at (fun s => s.IsTimeDone m) (.sleep 1) m (fun s => IsTimeDone_calls s m)
      (Or.inl rfl) sd k hf ht budget
  · intro hf ht budget
    rw [WaitUntilTachoDone_eq_pollLoop]
    exact wait_ends_at (fun s => s.IsTachoDone m) (.usleep 30000) m
      (fun s => IsTachoDone_calls s m) (Or.inr rfl) sd k hf ht budget
  · intro budget h
    rw [WaitUntilTimeDone_eq_pollLoop] at h ⊢
    exact pollLoop_exit (fun s => s.IsTimeDone m) (.sleep 1) budget sd h
  · intro budget h
    rw [WaitUntilTachoDone_eq_pollLoop] at h ⊢
    exact pollLoop_exit (fun s => s.IsTachoDone m) (.usleep 30000) budget sd h

/-- C18 on a board whose status bits clear at transport call 5: for Motor 1 the
time predicate fails at poll 0 and holds at poll 1, and the wait makes two
evaluations with one delay between them. -/
theorem wait_loops_end_at_first_done_poll_witness :
    ((SmartDrive.create (Device.busyUntil 5) 0x1B).WaitUntilTimeDone .Motor_ID_1 2).returned =
      true ∧
    callsSince (SmartDrive.create (Device.busyUntil 5) 0x1B)
      ((SmartDrive.create (Device.busyUntil 5) 0x1B).WaitUntilTimeDone .Motor_ID_1 2).sd =
      [.address 0x1B, .readReg 0x5A, .sleep 1, .address 0x1B, .readReg 0x5A] ∧
    ((SmartDrive.create (Device.busyUntil 5) 0x1B).WaitUntilTimeDone .Motor_ID_1 1).returned =
      false :=
  ⟨((wait_loops_end_at_first_done_poll (SmartDrive.create (Device.busyUntil 5) 0x1B)
      .Motor_ID_1 1).1 (by decide) (by decide) 2).1 (by decide) |>.1,
   (((wait_loops_end_at_first_done_poll (SmartDrive.create (Device.busyUntil 5) 0x1B)
      .Motor_ID_1 1).1 (by decide) (by decide) 2).1 (by decide) |>.2.1).trans (by decide),
   ((wait_loops_end_at_first_done_poll (SmartDrive.create (Device.busyUntil 5) 0x1B)
      .Motor_ID_1 1).1 (by decide) (by decide) 1).2 (by decide)⟩

/-! ## Where the blocks land -/

theorem landing_speed_blocks (l : List Call) (m : MotorID_t) (sp t c : Nat)
    (h : writes l = perMotor m 0x46 0x4E [sp, t, 0, c]) :
    (blocks l).map landing = (selectedRegs m).map (fun R => speedBlockOn R sp t c) := by
  rw [blocks_of_writes l _ h]
  cases m <;>
    simp [blocks, perMotor, Call.block?, landing, landFrom, selectedRegs, speedBlockOn,
      regsM1, regsM2]

theorem landing_setpoint_blocks (l : List Call) (m : MotorID_t) (d sp c : Nat)
    (h : writes l = perMotor m 0x42 0x4A
      [d % 256, d / 256 % 256, d / 65536 % 256, d / 16777216 % 256, sp, 0, 0, c]) :
    (blocks l).map landing = (selectedRegs m).map (fun R => setpointBlockOn R d sp c) := by
  rw [blocks_of_writes l _ h]
  cases m <;>
    simp [blocks, perMotor, Call.block?, landing, landFrom, selectedRegs, setpointBlockOn,
      regsM1, regsM2]

/-- C19. Taking byte `i ≥ 1` of a written buffer to land on register
`buffer[0] + i - 1`, every block written by the five run commands lands on the
registers the memory map names for the same motor: the four displacement bytes on
SETPT..SETPT+3, the speed byte on SPEED, the duration byte (0 where there is none)
on TIME, the zero byte on CMD_B and the control byte on CMD_A; Motor 1 blocks stay
within `0x42..0x49`, Motor 2 blocks within `0x4A..0x51`, and no register belongs
to both. -/
theorem run_blocks_land_on_named_registers (sd : SmartDrive) (m : MotorID_t)
    (direction : Direction_t) (speed duration degrees rotations tacho_count : Nat)
    (wait : Bool) (action : MotorAction_t) (budget : Nat) :
    (blocks (callsSince sd (sd.Run_Unlimited m direction speed))).map landing =
      (selectedRegs m).map
        (fun R => speedBlockOn R (signedSpeed direction speed) 0 (0x11 + goBit m)) ∧
    (blocks (callsSince sd
        (sd.Run_Seconds m direction speed duration wait action budget).sd)).map landing =
      (selectedRegs m).map
        (fun R => speedBlockOn R (signedSpeed direction speed) duration
          (0x41 + actionBits action + goBit m)) ∧
    (blocks (callsSince sd
        (sd.Run_Degrees m direction speed degrees wait action budget).sd)).map landing =
      (selectedRegs m).map
        (fun R => setpointBlockOn R (signedDisp direction degrees) speed
          (0x0D + actionBits action + goBit m)) ∧
    (blocks (callsSince sd
        (sd.Run_Rotations m direction speed rotations wait action budget).sd)).map landing =
      (selectedRegs m).map
        (fun R => setpointBlockOn R (rotationsDisp direction rotations) speed
          (0x0D + actionBits action + goBit m)) ∧
    (blocks (callsSince sd
        (sd.Run_Tacho m speed tacho_count wait action budget).sd)).map landing =
      (selectedRegs m).map
        (fun R => setpointBlockOn R tacho_count speed (0x09 + actionBits action + goBit m)) ∧
    regsM1.all = [0x42, 0x43, 0x44, 0x45, 0x46, 0x47, 0x48, 0x49] ∧
    regsM2.all = [0x4A, 0x4B, 0x4C, 0x4D, 0x4E, 0x4F, 0x50, 0x51] ∧
    (∀ r ∈ regsM1.all, r ∉ regsM2.all) := by
  refine ⟨?_, ?_, ?_, ?_, ?_, rfl, rfl, by decide⟩
  · exact landing_speed_blocks _ m _ _ _ (SmartDrive.Run_Unlimited_writes sd m direction speed)
  · exact landing_speed_blocks _ m _ _ _
      (SmartDrive.Run_Seconds_writes sd m direction speed duration wait action budget)
  · exact landing_setpoint_blocks _ m _ _ _
      (SmartDrive.Run_Degrees_writes sd m direction speed degrees wait action budget)
  · exact landing_setpoint_blocks _ m _ _ _
      (SmartDrive.Run_Rotations_writes sd m direction speed rotations wait action budget)
  · exact landing_setpoint_blocks _ m _ _ _
      (SmartDrive.Run_Tacho_writes sd m speed tacho_count wait action budget)

/-- C20. For every motor selector (also a single motor) and all other arguments,
`Run_Seconds` without waiting returns after making its writes and then, each after
a select, the reads of registers `0x46`, `0x4E`, `0x47`, `0x4F` in that order;
these are its only reads, so no status register is read.  With waiting it makes
the same calls, then `sleep(1)`, and only then the calls of `WaitUntilTimeDone`. -/
theorem Run_Seconds_reads_back (sd : SmartDrive) (m : MotorID_t) (direction : Direction_t)
    (speed duration : Nat) (action : MotorAction_t) (budget : Nat) :
    (sd.Run_Seconds m direction speed duration false action budget).returned = true ∧
    callsSince sd (sd.Run_Seconds m direction speed duration false action budget).sd =
      withSelect sd.m_controlAddr
        (writes (callsSince sd
          (sd.Run_Seconds m direction speed duration false action budget).sd)) ++
      [.address sd.m_controlAddr, .readReg 0x46, .address sd.m_controlAddr, .readReg 0x4E,
       .address sd.m_controlAddr, .readReg 0x47, .address sd.m_controlAddr, .readReg 0x4F] ∧
    reads (callsSince sd (sd.Run_Seconds m direction speed duration false action budget).sd) =
      [.readReg 0x46, .readReg 0x4E, .readReg 0x47, .readReg 0x4F] ∧
    sd.Run_Seconds m direction speed duration true action budget =
      ((sd.Run_Seconds m direction speed duration false action budget).sd.call
        (.sleep 1)).WaitUntilTimeDone m budget ∧
    callsSince sd (sd.Run_Seconds m direction speed duration true action budget).sd =
      callsSince sd (sd.Run_Seconds m direction speed duration false action budget).sd ++
      .sleep 1 ::
        callsSince
          ((sd.Run_Seconds m direction speed duration false action budget).sd.call (.sleep 1))
          (((sd.Run_Seconds m direction speed duration false action budget).sd.call
            (.sleep 1)).WaitUntilTimeDone m budget).sd := by
  have hb : sd.Run_Seconds m direction speed duration false action budget =
      sd.Run_Seconds m direction speed duration false action 0 := rfl
  have hlog := SmartDrive.Run_Seconds_nowait_log sd m direction speed duration action
  have hw := SmartDrive.Run_Seconds_writes sd m direction speed duration false action 0
  have hcalls := callsSince_append sd _ _ (by rw [hlog, List.append_assoc])
  have htrue : sd.Run_Seconds m direction speed duration true action budget =
      ((sd.Run_Seconds m direction speed duration false action budget).sd.call
        (.sleep 1)).WaitUntilTimeDone m budget := rfl
  refine ⟨rfl, ?_, ?_, htrue, ?_⟩
  · rw [hb, hw, hcalls]
    rfl
  · rw [hb, hcalls]
    have hr := reads_withSelect sd.m_controlAddr _
      (fun c hc => (perMotor_isTransfer m 0x46 0x4E
        [signedSpeed direction speed, duration, 0, 0x41 + actionBits action + goBit m] c hc).2)
    simp only [reads] at hr
    simp [reads, List.filter_append, hr, secondsReadback, withSelect, Call.isRead]
  · rw [htrue, hb]
    obtain ⟨_, e, he, _⟩ := WaitUntilTimeDone_selected
      ((sd.Run_Seconds m direction speed duration false action 0).sd.call (.sleep 1))
      m budget
    rw [callsSince_append _ _ e he, hcalls]
    apply callsSince_append
    rw [he]
    simp [hlog]

/-! ## Selectors outside an operation's intended range -/

/-- C21. `ReadTachometerPosition` applied to any selector other than `Motor_ID_1`,
in particular to `Motor_ID_BOTH`, behaves exactly as for `Motor_ID_2`: it makes
one 4-byte read of the Motor-2 position register `0x56` (after the address
select), returns the same value and reaches the same state, and makes no read of
the Motor-1 position register `0x52`. -/
theorem ReadTachometerPosition_other_selector (sd : SmartDrive) (m : MotorID_t)
    (hm : m ≠ .Motor_ID_1) :
    sd.ReadTachometerPosition m = sd.ReadTachometerPosition .Motor_ID_2 ∧
    callsSince sd (sd.ReadTachometerPosition m).2 =
      [.address sd.m_controlAddr, .readBytesReg 0x56 4] ∧
    (sd.ReadTachometerPosition m).1 =
      sd.board.reg (sd.log.length + 1) 0x56 % 256 +
      256 * (sd.board.reg (sd.log.length + 1) 0x57 % 256) +
      65536 * (sd.board.reg (sd.log.length + 1) 0x58 % 256) +
      16777216 * (sd.board.reg (sd.log.length + 1) 0x59 % 256) ∧
    (∀ n, Call.readBytesReg 0x52 n ∉ callsSince sd (sd.ReadTachometerPosition m).2) := by
  have hfun : sd.ReadTachometerPosition m = sd.readLongSigned SmartDrive_POSITION_M2 := by
    cases m
    · exact absurd rfl hm
    · rfl
    · rfl
  have hcalls : callsSince sd (sd.ReadTachometerPosition m).2 =
      [.address sd.m_controlAddr, .readBytesReg 0x56 4] := by
    apply callsSince_append
    rw [hfun]
    simp [SmartDrive.readLongSigned]
  refine ⟨hfun.trans rfl, hcalls, ?_, ?_⟩
  · rw [hfun]
    exact readLongSigned_value sd 0x56
  · intro n
    rw [hcalls]
    simp

/-- C21 at `Motor_ID_BOTH` on a board that holds `0x11` in the Motor-1 position
bytes and `0x22` elsewhere: the value read is that of the Motor-2 register. -/
theorem ReadTachometerPosition_other_selector_witness :
    MotorID_t.Motor_ID_BOTH ≠ MotorID_t.Motor_ID_1 ∧
    (onBoard fun r => if r < 0x56 then 0x11 else 0x22).ReadTachometerPosition .Motor_ID_BOTH =
      (onBoard fun r => if r < 0x56 then 0x11 else 0x22).ReadTachometerPosition .Motor_ID_2 ∧
    ((onBoard fun r => if r < 0x56 then 0x11 else 0x22).ReadTachometerPosition
      .Motor_ID_BOTH).1 = 0x22222222 ∧
    ((onBoard fun r => if r < 0x56 then 0x11 else 0x22).ReadTachometerPosition
      .Motor_ID_1).1 = 0x11111111 :=
  ⟨by decide,
   (ReadTachometerPosition_other_selector (onBoard fun r => if r < 0x56 then 0x11 else 0x22)
      .Motor_ID_BOTH (by decide)).1,
   by decide, by decide⟩

/-- C22. `GetMotorStatus(Motor_ID_BOTH)` makes no call on the bus, leaves the
driver state as it was and returns 0, whatever the board's registers hold: in the
result every status flag of the status byte is clear. -/
theorem GetMotorStatus_both_is_zero (sd : SmartDrive) :
    sd.GetMotorStatus .Motor_ID_BOTH = (0, sd) ∧
    callsSince sd (sd.GetMotorStatus .Motor_ID_BOTH).2 = [] ∧
    transfers (callsSince sd (sd.GetMotorStatus .Motor_ID_BOTH).2) = [] ∧
    (∀ mask ∈ [SmartDrive_MOTOR_CONTROL_ON, SmartDrive_MOTOR_IS_RAMPING,
        SmartDrive_MOTOR_IS_POWERED, SmartDrive_MOTOR_POS_CTRL_ON,
        SmartDrive_MOTOR_IN_BRAKE_MODE, SmartDrive_MOTOR_OVERLOADED,
        SmartDrive_MOTOR_IN_TIME_MODE, SmartDrive_MOTOR_IS_STALLED],
      (sd.GetMotorStatus .Motor_ID_BOTH).1 &&& mask = 0) ∧
    ((onBoard fun _ => 0xFF).GetMotorStatus .Motor_ID_BOTH).1 = 0 ∧
    ((onBoard fun _ => 0xFF).GetMotorStatus .Motor_ID_BOTH).1 =
      ((onBoard fun _ => 0).GetMotorStatus .Motor_ID_1).1 := by
  have hfun : sd.GetMotorStatus .Motor_ID_BOTH = (0, sd) := rfl
  refine ⟨hfun, ?_, ?_, ?_, by decide, by decide⟩
  · rw [hfun]
    simp [callsSince]
  · rw [hfun]
    simp [callsSince, transfers]
  · rw [hfun]
    intro mask _
    exact Nat.zero_and mask

end upm
